import Mathlib

/-!
Verification of the face-recognition service core
(`services/face-recognition/src`): per-frame identity matching
(`recognizer.py`), temporal multi-frame verification (`voting.py`),
the RTSP reconnect backoff (`rtsp_stream.py`), the durable event log
with buffer fallback (`redis_client.py`, `main.py`), and the remapped
cosine similarity.

Python floats are modelled as rationals (`ℚ`) except for the cosine
similarity, which is genuinely real-valued (`ℝ`, square roots).
Stateful code is modelled by explicit state passing.
-/

namespace CCTV

/-! ### Configuration (`config.py`) -/

namespace Settings

def SIMILARITY_THRESHOLD : ℚ := 35 / 100

def VOTING_THRESHOLD : ℚ := 60 / 100

def VERIFICATION_FRAMES : ℕ := 3

def VERIFICATION_INTERVAL : ℚ := 1

def RECONNECT_DELAY : ℕ := 30

def MAX_RECONNECT_DELAY : ℕ := 300

def MAX_BUFFER_SIZE : ℕ := 10000

end Settings

/-! ### Data model (`recognizer.py`) -/

/-- The `decision` field of a `RecognitionResult`. -/
inductive Decision where
  | MATCH
  | NO_MATCH
  | UNKNOWN
deriving DecidableEq, Repr

/-- `RecognitionResult` from `recognizer.py`. -/
structure RecognitionResult where
  person_id : Option String
  full_name : Option String
  similarity : ℚ
  vote_count : ℕ
  total_embeddings : ℕ
  vote_percentage : ℚ
  decision : Decision
deriving DecidableEq, Repr

instance : Inhabited RecognitionResult :=
  ⟨⟨none, none, 0, 0, 0, 0, Decision.UNKNOWN⟩⟩

/-- One entry of the `registered_embeddings` list passed to
`ArcFaceRecognizer.recognize_face`.  The embedding type is abstract
(`α`); the similarity function is passed in explicitly. -/
structure RegisteredEmbedding (α : Type) where
  person_id : String
  full_name : String
  embedding : α
  is_active : Bool
deriving DecidableEq

/-- One value of the `person_embeddings` dict built by
`recognize_face`: a person id together with its collected embeddings,
in insertion order. -/
structure PersonGroup (α : Type) where
  person_id : String
  full_name : String
  embeddings : List α
deriving DecidableEq

/-- Add one active registered item to the ordered group list, the way a
Python dict keyed by `person_id` accumulates: the first occurrence of a
person id creates a group (capturing that item's `full_name`), later
occurrences append to the existing group's embedding list. -/
def addToGroups {α : Type} (gs : List (PersonGroup α)) (item : RegisteredEmbedding α) :
    List (PersonGroup α) :=
  match gs with
  | [] => [⟨item.person_id, item.full_name, [item.embedding]⟩]
  | g :: rest =>
      if g.person_id = item.person_id then
        ⟨g.person_id, g.full_name, g.embeddings ++ [item.embedding]⟩ :: rest
      else
        g :: addToGroups rest item

/-- The grouping loop of `recognize_face`: inactive items are skipped,
active items are grouped by person id in insertion order. -/
def groupByPerson {α : Type} (registered : List (RegisteredEmbedding α)) :
    List (PersonGroup α) :=
  registered.foldl (fun gs item => if item.is_active then addToGroups gs item else gs) []

/-- `similarities` computed for one person group. -/
def groupSims {α : Type} (sim : α → α → ℚ) (query : α) (g : PersonGroup α) : List ℚ :=
  g.embeddings.map (sim query)

/-- `high_confidence_votes`: the number of enrolled embeddings whose
similarity to the query strictly exceeds the similarity threshold. -/
def groupVotes {α : Type} (sim : α → α → ℚ) (query : α) (sthr : ℚ) (g : PersonGroup α) : ℕ :=
  (groupSims sim query g).countP (fun s => decide (sthr < s))

/-- `avg_similarity = np.mean(similarities)`. -/
def groupAvg {α : Type} (sim : α → α → ℚ) (query : α) (g : PersonGroup α) : ℚ :=
  (groupSims sim query g).sum / (g.embeddings.length : ℚ)

/-- `vote_percentage = high_confidence_votes / total_embeddings`. -/
def groupRatio {α : Type} (sim : α → α → ℚ) (query : α) (sthr : ℚ) (g : PersonGroup α) : ℚ :=
  (groupVotes sim query sthr g : ℚ) / (g.embeddings.length : ℚ)

/-- The best-match selection loop of `recognize_face`: starting from
`best_match = None` and `best_vote_percentage = 0.0`, each group whose
vote percentage strictly exceeds the current best becomes the new best. -/
def pickFirstMax {β : Type} (f : β → ℚ) (l : List β) (acc : Option β × ℚ) : Option β × ℚ :=
  match l with
  | [] => acc
  | x :: xs => if acc.2 < f x then pickFirstMax f xs (some x, f x) else pickFirstMax f xs acc

/-- `ArcFaceRecognizer.recognize_face`, with the embedding type and the
similarity function abstracted.  Returns `UNKNOWN` when no group was
ever selected as best, otherwise `MATCH` iff the best vote percentage
reaches the voting threshold. -/
def recognize_face {α : Type} (sim : α → α → ℚ) (query : α)
    (registered : List (RegisteredEmbedding α))
    (similarity_threshold voting_threshold : ℚ) : RecognitionResult :=
  let groups := groupByPerson registered
  let pick := pickFirstMax (groupRatio sim query similarity_threshold) groups (none, 0)
  match pick.1 with
  | none => ⟨none, none, 0, 0, 0, 0, Decision.UNKNOWN⟩
  | some g =>
      { person_id := some g.person_id
        full_name := some g.full_name
        similarity := groupAvg sim query g
        vote_count := groupVotes sim query similarity_threshold g
        total_embeddings := g.embeddings.length
        vote_percentage := pick.2
        decision := if voting_threshold ≤ pick.2 then Decision.MATCH else Decision.NO_MATCH }

/-! ### Temporal verification (`voting.py`)

Timestamps are rationals (seconds); `datetime.now()` becomes an
explicit `now` argument.  The per-track deque becomes a list, oldest
first; `deque(maxlen)` drops from the left on overflow. -/

/-- `FrameVerification` from `voting.py`. -/
structure FrameVerification where
  timestamp : ℚ
  result : RecognitionResult
deriving DecidableEq, Repr

/-- `MultiFrameVerifier` state: configuration plus the per-track
verification history (`Dict[str, deque]`, insertion-ordered). -/
structure MultiFrameVerifier where
  verification_frames : ℕ
  verification_interval : ℚ
  history_ttl : ℚ
  verification_history : List (String × List FrameVerification)
deriving DecidableEq

/-- A bounded append, as `deque(maxlen=n).append`: the new element goes
to the right, and elements are dropped from the left down to `maxlen`. -/
def histAppend (maxlen : ℕ) (h : List FrameVerification) (fv : FrameVerification) :
    List FrameVerification :=
  let h' := h ++ [fv]
  h'.drop (h'.length - maxlen)

/-- Append an observation under a tracking id, creating the track entry
(at the end, dict insertion order) when absent. -/
def addObs (maxlen : ℕ) (tid : String) (fv : FrameVerification) :
    List (String × List FrameVerification) → List (String × List FrameVerification)
  | [] => [(tid, histAppend maxlen [] fv)]
  | (k, h) :: rest =>
      if k = tid then (k, histAppend maxlen h fv) :: rest
      else (k, h) :: addObs maxlen tid fv rest

/-- `MultiFrameVerifier.add_verification`. -/
def MultiFrameVerifier.add_verification (v : MultiFrameVerifier) (tid : String)
    (r : RecognitionResult) (ts : ℚ) : MultiFrameVerifier :=
  { v with verification_history :=
      addObs (v.verification_frames * 2) tid ⟨ts, r⟩ v.verification_history }

/-- `tracking_id in self.verification_history` /
`self.verification_history[tracking_id]`. -/
def lookupTrack (hist : List (String × List FrameVerification)) (tid : String) :
    Option (List FrameVerification) :=
  match hist with
  | [] => none
  | (k, h) :: rest => if k = tid then some h else lookupTrack rest tid

/-- The recent-observation collection loop of `verify_identity`: scan
the history newest first, skip (when `require_recent`) observations
older than `max_age`, and stop once `frames` observations are
collected.  Equivalently: filter the reversed history, then take
`frames`. -/
def recentObs (require_recent : Bool) (now max_age : ℚ) (frames : ℕ)
    (hist : List FrameVerification) : List FrameVerification :=
  (hist.reverse.filter
    (fun fv => !(require_recent && decide (max_age < now - fv.timestamp)))).take frames

/-- The vote-grouping step of `_vote_across_frames`: append a MATCH
result under its person id, keys in first-occurrence order. -/
def insertVote (pid : Option String) (r : RecognitionResult) :
    List (Option String × List RecognitionResult) →
    List (Option String × List RecognitionResult)
  | [] => [(pid, [r])]
  | (k, rs) :: rest =>
      if k = pid then (k, rs ++ [r]) :: rest else (k, rs) :: insertVote pid r rest

/-- The `votes` dict of `_vote_across_frames`: only observations with
`decision == MATCH` are counted, grouped by `person_id`. -/
def collectVotes (vs : List FrameVerification) :
    List (Option String × List RecognitionResult) :=
  vs.foldl
    (fun acc fv =>
      if fv.result.decision = Decision.MATCH then insertVote fv.result.person_id fv.result acc
      else acc) []

/-- `max(votes.keys(), key=lambda pid: len(votes[pid]))`: Python `max`
keeps the first maximum in iteration order, replacing only on a strict
increase. -/
def maxVotes (e : Option String × List RecognitionResult)
    (l : List (Option String × List RecognitionResult)) :
    Option String × List RecognitionResult :=
  l.foldl (fun b x => if b.2.length < x.2.length then x else b) e

/-- `MultiFrameVerifier._vote_across_frames` (the `tracking_id`
argument is only logged and is omitted). -/
def voteAcrossFrames (vs : List FrameVerification) : RecognitionResult :=
  match collectVotes vs with
  | [] => ⟨none, none, 0, 0, vs.length, 0, Decision.NO_MATCH⟩
  | e :: rest =>
      let best := maxVotes e rest
      let match_count := best.2.length
      let total_frames := vs.length
      let vote_percentage : ℚ := (match_count : ℚ) / (total_frames : ℚ)
      { person_id := best.1
        full_name := best.2.headI.full_name
        similarity := (best.2.map RecognitionResult.similarity).sum / (match_count : ℚ)
        vote_count := match_count
        total_embeddings := total_frames
        vote_percentage := vote_percentage
        decision := if 1 / 2 < vote_percentage then Decision.MATCH else Decision.NO_MATCH }

/-- `votes[pid]`: first-match lookup in the ordered vote list (empty
for a missing key). -/
def lookupVotes (l : List (Option String × List RecognitionResult)) (k : Option String) :
    List RecognitionResult :=
  match l with
  | [] => []
  | (k', rs) :: rest => if k' = k then rs else lookupVotes rest k

/-- The observations of `vs` whose result is a MATCH for person `k`,
in scan order (specification helper for the vote grouping). -/
def matchResults (vs : List FrameVerification) (k : Option String) : List RecognitionResult :=
  (vs.map FrameVerification.result).filter
    (fun r => decide (r.decision = Decision.MATCH) && decide (r.person_id = k))

/-- A MATCH observation result (example-building helper). -/
def mkMatch (pid : String) (s : ℚ) : RecognitionResult :=
  ⟨some pid, some pid, s, 3, 5, 3/5, Decision.MATCH⟩

/-- A NO_MATCH observation result (example-building helper). -/
def mkNoMatch : RecognitionResult := ⟨some "X", some "X", 1/5, 1, 5, 1/5, Decision.NO_MATCH⟩

/-- `MultiFrameVerifier.verify_identity`.  The method only reads the
verifier state; we nevertheless return the post-call state explicitly
(second component) so that read-only-ness is a theorem, not a modelling
assumption.  The temporal-spacing check of the source only emits a log
warning and has no effect on the result. -/
def MultiFrameVerifier.verify_identity (v : MultiFrameVerifier) (now : ℚ) (tid : String)
    (require_recent : Bool) : Option RecognitionResult × MultiFrameVerifier :=
  match lookupTrack v.verification_history tid with
  | none => (none, v)
  | some history =>
      if history.length < v.verification_frames then (none, v)
      else
        let max_age := v.verification_interval * ((v.verification_frames : ℚ) - 1) + 5
        let recent := recentObs require_recent now max_age v.verification_frames history
        if recent.length < v.verification_frames then (none, v)
        else (some (voteAcrossFrames recent), v)

/-! ### Reconnect backoff (`rtsp_stream.py`)

`_handle_connection_failure` sleeps for the current `retry_delay` and
then sets `retry_delay = min(int(retry_delay * 1.5), max_retry_delay)`.
Delays are integers; Python `int(d * 1.5)` truncates, which for
nonnegative integer `d` is `3 * d / 2` in natural division. -/

/-- Retry bookkeeping of `ResilientRTSPStream`. -/
structure StreamRetryState where
  retry_count : ℕ
  retry_delay : ℕ
deriving DecidableEq, Repr

/-- `_handle_connection_failure`: returns the wait performed (the
current delay, slept before the update) and the updated state. -/
def handle_connection_failure (max_retry_delay : ℕ) (st : StreamRetryState) :
    ℕ × StreamRetryState :=
  (st.retry_delay,
    { retry_count := st.retry_count + 1
      retry_delay := min (st.retry_delay * 3 / 2) max_retry_delay })

/-- The waits performed by `n` consecutive connection failures, in
order, together with the final retry state. -/
def runFailures (max_retry_delay : ℕ) (st : StreamRetryState) : ℕ → List ℕ × StreamRetryState
  | 0 => ([], st)
  | n + 1 =>
      let p := handle_connection_failure max_retry_delay st
      let q := runFailures max_retry_delay p.2 n
      (p.1 :: q.1, q.2)

/-- The waits of consecutive failures starting from delay `d`
(specification helper used to state the backoff schedule). -/
def waitsFrom (max_retry_delay : ℕ) (d : ℕ) : ℕ → List ℕ
  | 0 => []
  | n + 1 => d :: waitsFrom max_retry_delay (min (d * 3 / 2) max_retry_delay) n

/-- The schedule the code actually produces from the default
configuration: 30, 45, 67, 100, 150, 225, then 300 forever. -/
def defaultSchedule (k : ℕ) : ℕ :=
  [30, 45, 67, 100, 150, 225].getD k 300

/-! ### Durable event log with buffer fallback
(`redis_client.py`, `main.py`)

Redis streams become lists of messages (id, payload), oldest first;
`xadd` with `maxlen` appends and trims from the left.  The broadcast
channel (pub/sub) has no durable effect.  Unreachability of a log is a
per-log flag; a raw operation on an unreachable log raises
(`Except.error`), and each client method catches its own exceptions
exactly where the source has `try/except`. -/

/-- A Redis stream entry. -/
structure StreamMsg where
  id : ℕ
  data : String
deriving DecidableEq, Repr

/-- `xadd` with `maxlen`: append, then keep the newest `maxlen`. -/
def xaddTrim (maxlen : ℕ) (stream : List StreamMsg) (m : StreamMsg) : List StreamMsg :=
  let s := stream ++ [m]
  s.drop (s.length - maxlen)

/-- Primary-log max length (`maxlen=100000` in `publish_face_event`
and `sync_buffer_to_stream`).  Kept irreducible so that unification
never unfolds a 100000-step unary `Nat.sub`. -/
@[irreducible] def PRIMARY_MAXLEN : ℕ := 100000

/-- The durable state of the event transport: reachability flags, the
primary face-events stream, the buffer stream, and the next message id
(Redis assigns ids on `xadd`). -/
structure RedisState where
  primary_up : Bool
  buffer_up : Bool
  face_events : List StreamMsg
  buffer : List StreamMsg
  next_id : ℕ
deriving DecidableEq, Repr

/-- Raw `redis.xadd` on the face-events or buffer stream: raises when
the target log is unreachable, otherwise appends with the stream's
`maxlen` and returns the assigned id. -/
def redis_xadd (s : RedisState) (use_buffer : Bool) (d : String) :
    Except Unit (ℕ × RedisState) :=
  if use_buffer then
    if s.buffer_up then
      Except.ok (s.next_id,
        { s with buffer := xaddTrim Settings.MAX_BUFFER_SIZE s.buffer ⟨s.next_id, d⟩
                 next_id := s.next_id + 1 })
    else Except.error ()
  else
    if s.primary_up then
      Except.ok (s.next_id,
        { s with face_events := xaddTrim PRIMARY_MAXLEN s.face_events ⟨s.next_id, d⟩
                 next_id := s.next_id + 1 })
    else Except.error ()

/-- `RedisClient.publish_face_event`: the whole body is wrapped in
`try/except Exception`, so the method itself never raises — on any
failure it logs and returns `None`, leaving the streams unchanged. -/
def publish_face_event (s : RedisState) (d : String) (use_buffer : Bool) :
    Option ℕ × RedisState :=
  match redis_xadd s use_buffer d with
  | Except.ok p => (some p.1, p.2)
  | Except.error _ => (none, s)

/-- `RedisClient.publish_face_detection`: a pub/sub broadcast with no
durable effect; it also catches all its own exceptions and never
raises. -/
def publish_face_detection (s : RedisState) (_d : String) : RedisState := s

/-- The event-publication block of `main.process_face` for a MATCH
result: `try:` publish to the primary stream, then broadcast;
`except:` publish to the buffer stream.  Both callees swallow their own
exceptions and never raise, so the `except` handler is unreachable and
the translation is the `try` body alone. -/
def process_face_publish (s : RedisState) (event_data : String) : RedisState :=
  let p := publish_face_event s event_data false
  publish_face_detection p.2 event_data

/-- The loop body of `RedisClient.sync_buffer_to_stream`: for each
message of the `xrange` snapshot, copy its payload to the face-events
stream (fresh id, `maxlen=100000`), then delete its id from the buffer
(`xdel`), then increment the counter. -/
def syncLoop : RedisState → List StreamMsg → ℕ → ℕ × RedisState
  | s, [], synced => (synced, s)
  | s, m :: rest, synced =>
      syncLoop
        { s with face_events := xaddTrim PRIMARY_MAXLEN s.face_events ⟨s.next_id, m.data⟩
                 next_id := s.next_id + 1
                 buffer := s.buffer.filter (fun x => x.id ≠ m.id) }
        rest (synced + 1)

/-- `RedisClient.sync_buffer_to_stream`: snapshot the buffer with
`xrange` and run the copy-then-delete loop.  The source wraps the body
in `try/except` returning 0 on failure; the unreachable-primary case
is modelled by the `primary_up` guard. -/
def sync_buffer_to_stream (s : RedisState) : ℕ × RedisState :=
  if s.primary_up then syncLoop s s.buffer 0 else (0, s)

/-! ### Cosine similarity (`recognizer.py`, `compute_similarity`)

The one genuinely real-valued computation: embeddings are vectors of
reals, and `compute_similarity` remaps cosine similarity from
`[-1, 1]` to `[0, 1]`. -/

/-- `np.dot` on real vectors. -/
def dotProduct {n : ℕ} (x y : Fin n → ℝ) : ℝ := ∑ i, x i * y i

/-- `np.linalg.norm`. -/
noncomputable def vecNorm {n : ℕ} (x : Fin n → ℝ) : ℝ := Real.sqrt (dotProduct x x)

/-- `ArcFaceRecognizer.compute_similarity`:
`(dot(a, b) / (norm(a) * norm(b)) + 1) / 2`. -/
noncomputable def compute_similarity {n : ℕ} (x y : Fin n → ℝ) : ℝ :=
  (dotProduct x y / (vecNorm x * vecNorm y) + 1) / 2

/-! ## Shared lemmas -/

/-- Characterization of the best-match selection loop: either no list
element strictly beats the initial percentage and the accumulator is
returned unchanged, or the result is the first element attaining the
running maximum (elements before it are strictly smaller, elements
after it are no larger). -/
theorem pickFirstMax_spec {β : Type} (f : β → ℚ) (l : List β) (b : Option β) (p : ℚ) :
    (pickFirstMax f l (b, p) = (b, p) ∧ ∀ x ∈ l, f x ≤ p) ∨
    (∃ l₁ a l₂, l = l₁ ++ a :: l₂ ∧ pickFirstMax f l (b, p) = (some a, f a) ∧ p < f a ∧
      (∀ x ∈ l₁, f x < f a) ∧ (∀ x ∈ l₂, f x ≤ f a)) := by
  induction l generalizing b p with
  | nil => exact Or.inl ⟨rfl, by simp⟩
  | cons x xs ih =>
    by_cases hx : p < f x
    · rcases ih (some x) (f x) with ⟨heq, hall⟩ | ⟨l₁, a, l₂, hsplit, heq, hlt, h₁, h₂⟩
      · refine Or.inr ⟨[], x, xs, by simp, ?_, hx, by simp, hall⟩
        simpa [pickFirstMax, hx] using heq
      · refine Or.inr ⟨x :: l₁, a, l₂, by simp [hsplit], ?_, lt_trans hx hlt, ?_, h₂⟩
        · simpa [pickFirstMax, hx] using heq
        · intro y hy
          rcases List.mem_cons.mp hy with rfl | hy
          · exact hlt
          · exact h₁ y hy
    · push_neg at hx
      rcases ih b p with ⟨heq, hall⟩ | ⟨l₁, a, l₂, hsplit, heq, hlt, h₁, h₂⟩
      · refine Or.inl ⟨?_, ?_⟩
        · simpa [pickFirstMax, not_lt.mpr hx] using heq
        · intro y hy
          rcases List.mem_cons.mp hy with rfl | hy
          · exact hx
          · exact hall y hy
      · refine Or.inr ⟨x :: l₁, a, l₂, by simp [hsplit], ?_, hlt, ?_, h₂⟩
        · simpa [pickFirstMax, not_lt.mpr hx] using heq
        · intro y hy
          rcases List.mem_cons.mp hy with rfl | hy
          · exact lt_of_le_of_lt hx hlt
          · exact h₁ y hy

/-- The selection loop yields no best match exactly when no group has a
positive vote percentage. -/
theorem pickFirstMax_eq_none_iff {β : Type} (f : β → ℚ) (l : List β) :
    (pickFirstMax f l (none, 0)).1 = none ↔ ∀ x ∈ l, f x ≤ 0 := by
  constructor
  · intro h
    rcases pickFirstMax_spec f l none 0 with ⟨_, hall⟩ | ⟨l₁, a, l₂, _, heq, _, _, _⟩
    · simpa using hall
    · rw [heq] at h
      simp at h
  · intro hall
    rcases pickFirstMax_spec f l none 0 with ⟨heq, _⟩ | ⟨l₁, a, l₂, hsplit, _, hpos, _, _⟩
    · rw [heq]
    · exfalso
      have ha : a ∈ l := by
        rw [hsplit]
        exact List.mem_append_right _ (List.mem_cons_self _ _)
      exact absurd (hall a ha) (not_le.mpr hpos)

/-- When some group has a positive vote percentage, the selection loop
picks the first group attaining the maximum. -/
theorem pickFirstMax_pos {β : Type} (f : β → ℚ) (l : List β)
    (h : ∃ x ∈ l, 0 < f x) :
    ∃ l₁ a l₂, l = l₁ ++ a :: l₂ ∧ pickFirstMax f l (none, 0) = (some a, f a) ∧ 0 < f a ∧
      (∀ x ∈ l₁, f x < f a) ∧ (∀ x ∈ l₂, f x ≤ f a) := by
  rcases pickFirstMax_spec f l none 0 with ⟨_, hall⟩ | good
  · obtain ⟨x, hx, hpos⟩ := h
    exact absurd (hall x hx) (not_le.mpr hpos)
  · exact good

/-- Unfolding `recognize_face` when no best match was selected. -/
theorem recognize_face_none {α : Type} {sim : α → α → ℚ} {query : α}
    {regs : List (RegisteredEmbedding α)} {sthr vthr : ℚ}
    (h : (pickFirstMax (groupRatio sim query sthr) (groupByPerson regs) (none, 0)).1 = none) :
    recognize_face sim query regs sthr vthr = ⟨none, none, 0, 0, 0, 0, Decision.UNKNOWN⟩ := by
  simp only [recognize_face]
  rw [h]

/-- Unfolding `recognize_face` when group `g` was selected as best. -/
theorem recognize_face_some {α : Type} {sim : α → α → ℚ} {query : α}
    {regs : List (RegisteredEmbedding α)} {sthr vthr : ℚ} {g : PersonGroup α}
    (h : (pickFirstMax (groupRatio sim query sthr) (groupByPerson regs) (none, 0)).1 = some g) :
    recognize_face sim query regs sthr vthr =
      { person_id := some g.person_id
        full_name := some g.full_name
        similarity := groupAvg sim query g
        vote_count := groupVotes sim query sthr g
        total_embeddings := g.embeddings.length
        vote_percentage :=
          (pickFirstMax (groupRatio sim query sthr) (groupByPerson regs) (none, 0)).2
        decision :=
          if vthr ≤ (pickFirstMax (groupRatio sim query sthr) (groupByPerson regs) (none, 0)).2
          then Decision.MATCH else Decision.NO_MATCH } := by
  simp only [recognize_face]
  rw [h]

/-- Every group built by `addToGroups` keeps a nonempty embedding list. -/
theorem addToGroups_ne {α : Type} (gs : List (PersonGroup α)) (item : RegisteredEmbedding α)
    (h : ∀ g ∈ gs, g.embeddings ≠ []) :
    ∀ g ∈ addToGroups gs item, g.embeddings ≠ [] := by
  induction gs with
  | nil =>
    intro g hg
    simp only [addToGroups, List.mem_singleton] at hg
    subst hg
    simp
  | cons g₀ rest ih =>
    intro g hg
    by_cases he : g₀.person_id = item.person_id
    · simp only [addToGroups, if_pos he, List.mem_cons] at hg
      rcases hg with rfl | hg
      · simp
      · exact h g (List.mem_cons_of_mem _ hg)
    · simp only [addToGroups, if_neg he, List.mem_cons] at hg
      rcases hg with rfl | hg
      · exact h g (List.mem_cons_self _ _)
      · exact ih (fun g' hg' => h g' (List.mem_cons_of_mem _ hg')) g hg

/-- Every person group produced by the grouping loop has at least one
embedding. -/
theorem groupByPerson_ne {α : Type} (regs : List (RegisteredEmbedding α)) :
    ∀ g ∈ groupByPerson regs, g.embeddings ≠ [] := by
  have key : ∀ (l : List (RegisteredEmbedding α)) (acc : List (PersonGroup α)),
      (∀ g ∈ acc, g.embeddings ≠ []) →
      ∀ g ∈ l.foldl (fun gs item => if item.is_active then addToGroups gs item else gs) acc,
        g.embeddings ≠ [] := by
    intro l
    induction l with
    | nil => intro acc h; simpa using h
    | cons item rest ih =>
      intro acc h
      simp only [List.foldl_cons]
      by_cases ha : item.is_active
      · simp only [if_pos ha]
        exact ih _ (addToGroups_ne acc item h)
      · simp only [if_neg ha]
        exact ih _ h
  exact key regs [] (by simp)

/-! ## C3: UNKNOWN vs NO_MATCH in the per-frame matcher -/

/-- C3 counterexample: one active enrolled identity whose single
embedding has similarity 1/5 (below the default threshold 0.35).  The
best agreement ratio is 0, which is below `VotingThreshold`, yet the
matcher returns `UNKNOWN` with no candidate reported — not `NO_MATCH`
as the claim requires for a non-empty active collection. -/
theorem recognize_face_zero_ratio_unknown_cex :
    ((recognize_face (fun _ _ : Unit => (1 : ℚ)/5) () [⟨"P1", "Alice", (), true⟩]
        Settings.SIMILARITY_THRESHOLD Settings.VOTING_THRESHOLD).decision = Decision.UNKNOWN)
    ∧ ((recognize_face (fun _ _ : Unit => (1 : ℚ)/5) () [⟨"P1", "Alice", (), true⟩]
        Settings.SIMILARITY_THRESHOLD Settings.VOTING_THRESHOLD).person_id = none)
    ∧ ([(⟨"P1", "Alice", (), true⟩ : RegisteredEmbedding Unit)] ≠ [])
    ∧ (∀ it ∈ [(⟨"P1", "Alice", (), true⟩ : RegisteredEmbedding Unit)], it.is_active = true) := by
  refine ⟨?_, ?_, by decide, by decide⟩ <;>
    norm_num [recognize_face, groupByPerson, addToGroups, pickFirstMax, groupRatio, groupVotes,
      groupSims, List.countP, List.countP.go, Settings.SIMILARITY_THRESHOLD,
      Settings.VOTING_THRESHOLD]

/-- C3 (amended): the matcher returns `UNKNOWN` exactly when no active
identity has a positive agreement ratio (in particular when there are
no active identities); whenever some identity has a positive agreement
ratio and the best ratio is below the voting threshold, it returns
`NO_MATCH` with the best candidate still reported. -/
theorem recognize_face_unknown_iff_no_positive_ratio {α : Type} (sim : α → α → ℚ)
    (query : α) (regs : List (RegisteredEmbedding α)) (sthr vthr : ℚ) :
    ((recognize_face sim query regs sthr vthr).decision = Decision.UNKNOWN ↔
      ∀ g ∈ groupByPerson regs, groupRatio sim query sthr g ≤ 0)
    ∧ ((∃ g ∈ groupByPerson regs, 0 < groupRatio sim query sthr g) →
        (recognize_face sim query regs sthr vthr).vote_percentage < vthr →
        (recognize_face sim query regs sthr vthr).decision = Decision.NO_MATCH ∧
          (recognize_face sim query regs sthr vthr).person_id.isSome = true) := by
  constructor
  · cases hp : (pickFirstMax (groupRatio sim query sthr) (groupByPerson regs) (none, 0)).1 with
    | none =>
      rw [recognize_face_none hp]
      exact ⟨fun _ => (pickFirstMax_eq_none_iff _ _).mp hp, fun _ => rfl⟩
    | some g =>
      rw [recognize_face_some hp]
      constructor
      · intro hdec
        exfalso
        revert hdec
        split <;> simp
      · intro hall
        have := (pickFirstMax_eq_none_iff (groupRatio sim query sthr) (groupByPerson regs)).mpr hall
        rw [hp] at this
        simp at this
  · intro hpos hlt
    obtain ⟨l₁, a, l₂, _, heq, _, _, _⟩ :=
      pickFirstMax_pos (groupRatio sim query sthr) (groupByPerson regs) hpos
    have hp : (pickFirstMax (groupRatio sim query sthr) (groupByPerson regs) (none, 0)).1
        = some a := by rw [heq]
    rw [recognize_face_some hp] at hlt ⊢
    refine ⟨?_, rfl⟩
    simp only [not_le.mpr hlt, if_false]

/-- C3 amended-theorem witness: a single identity with two enrolled
embeddings, similarities 9/10 and 1/5, has agreement ratio 1/2 — positive
but below the 0.60 threshold — and the matcher reports `NO_MATCH` with
the candidate. -/
theorem recognize_face_unknown_iff_no_positive_ratio_witness :
    (recognize_face (fun _ e : ℕ => if e = 0 then (9 : ℚ)/10 else (1 : ℚ)/5) 0
        [⟨"P1", "Alice", 0, true⟩, ⟨"P1", "Alice", 1, true⟩]
        Settings.SIMILARITY_THRESHOLD Settings.VOTING_THRESHOLD).decision = Decision.NO_MATCH ∧
    (recognize_face (fun _ e : ℕ => if e = 0 then (9 : ℚ)/10 else (1 : ℚ)/5) 0
        [⟨"P1", "Alice", 0, true⟩, ⟨"P1", "Alice", 1, true⟩]
        Settings.SIMILARITY_THRESHOLD Settings.VOTING_THRESHOLD).person_id.isSome = true :=
  (recognize_face_unknown_iff_no_positive_ratio
      (fun _ e : ℕ => if e = 0 then (9 : ℚ)/10 else (1 : ℚ)/5) 0
      [⟨"P1", "Alice", 0, true⟩, ⟨"P1", "Alice", 1, true⟩]
      Settings.SIMILARITY_THRESHOLD Settings.VOTING_THRESHOLD).2
    ⟨⟨"P1", "Alice", [0, 1]⟩, by decide,
      by norm_num [groupRatio, groupVotes, groupSims, List.countP, List.countP.go,
        Settings.SIMILARITY_THRESHOLD]⟩
    (by norm_num [recognize_face, groupByPerson, addToGroups, pickFirstMax, groupRatio,
      groupVotes, groupSims, List.countP, List.countP.go, Settings.SIMILARITY_THRESHOLD,
      Settings.VOTING_THRESHOLD])

/-! ## C4: tie-breaking in the per-frame matcher -/

/-- C4 counterexample: identities A and B both have agreement ratio 1,
but B has the strictly higher mean similarity (19/20 versus 9/10).  The
claim requires the tie to be broken toward the higher mean, i.e. B; the
matcher picks A, because its selection loop only replaces the running
best on a strict ratio increase and never consults the mean. -/
theorem recognize_face_tie_ignores_mean_cex :
    (groupByPerson [(⟨"A", "a", 0, true⟩ : RegisteredEmbedding ℕ), ⟨"B", "b", 1, true⟩]
      = [⟨"A", "a", [0]⟩, ⟨"B", "b", [1]⟩])
    ∧ (groupRatio (fun _ e : ℕ => if e = 0 then (9 : ℚ)/10 else (19 : ℚ)/20) 0
        Settings.SIMILARITY_THRESHOLD ⟨"A", "a", [0]⟩
      = groupRatio (fun _ e : ℕ => if e = 0 then (9 : ℚ)/10 else (19 : ℚ)/20) 0
        Settings.SIMILARITY_THRESHOLD ⟨"B", "b", [1]⟩)
    ∧ (groupAvg (fun _ e : ℕ => if e = 0 then (9 : ℚ)/10 else (19 : ℚ)/20) 0 ⟨"A", "a", [0]⟩
      < groupAvg (fun _ e : ℕ => if e = 0 then (9 : ℚ)/10 else (19 : ℚ)/20) 0 ⟨"B", "b", [1]⟩)
    ∧ ((recognize_face (fun _ e : ℕ => if e = 0 then (9 : ℚ)/10 else (19 : ℚ)/20) 0
        [⟨"A", "a", 0, true⟩, ⟨"B", "b", 1, true⟩]
        Settings.SIMILARITY_THRESHOLD Settings.VOTING_THRESHOLD).person_id = some "A")
    ∧ ("A" : String) ≠ "B" := by
  refine ⟨by decide, ?_, ?_, ?_, by decide⟩ <;>
    norm_num [recognize_face, groupByPerson, addToGroups, pickFirstMax, groupRatio, groupVotes,
      groupAvg, groupSims, List.countP, List.countP.go, Settings.SIMILARITY_THRESHOLD,
      Settings.VOTING_THRESHOLD]

/-- C4 (amended): when some identity has a positive agreement ratio,
the matcher reports the first identity (in stable insertion order of
the grouped registry) attaining the maximal ratio: every earlier group
has a strictly smaller ratio and every later group a ratio no larger.
Ties are therefore broken purely by insertion order; mean similarity is
not consulted. -/
theorem recognize_face_picks_first_max_ratio {α : Type} (sim : α → α → ℚ) (query : α)
    (regs : List (RegisteredEmbedding α)) (sthr vthr : ℚ)
    (hpos : ∃ g ∈ groupByPerson regs, 0 < groupRatio sim query sthr g) :
    ∃ l₁ g l₂, groupByPerson regs = l₁ ++ g :: l₂ ∧
      (recognize_face sim query regs sthr vthr).person_id = some g.person_id ∧
      (recognize_face sim query regs sthr vthr).vote_percentage = groupRatio sim query sthr g ∧
      (∀ x ∈ l₁, groupRatio sim query sthr x < groupRatio sim query sthr g) ∧
      (∀ x ∈ l₂, groupRatio sim query sthr x ≤ groupRatio sim query sthr g) := by
  obtain ⟨l₁, a, l₂, hsplit, heq, _, h₁, h₂⟩ :=
    pickFirstMax_pos (groupRatio sim query sthr) (groupByPerson regs) hpos
  have hp : (pickFirstMax (groupRatio sim query sthr) (groupByPerson regs) (none, 0)).1
      = some a := by rw [heq]
  refine ⟨l₁, a, l₂, hsplit, ?_, ?_, h₁, h₂⟩
  · rw [recognize_face_some hp]
  · rw [recognize_face_some hp]
    simp only [heq]

/-- C4 amended-theorem witness at a concrete registry with one active
identity of similarity 1/2. -/
theorem recognize_face_picks_first_max_ratio_witness :
    ∃ l₁ g l₂,
      groupByPerson [(⟨"W", "w", 0, true⟩ : RegisteredEmbedding ℕ)] = l₁ ++ g :: l₂ ∧
      (recognize_face (fun _ _ : ℕ => (1 : ℚ)/2) 0 [⟨"W", "w", 0, true⟩]
        Settings.SIMILARITY_THRESHOLD Settings.VOTING_THRESHOLD).person_id = some g.person_id ∧
      (recognize_face (fun _ _ : ℕ => (1 : ℚ)/2) 0 [⟨"W", "w", 0, true⟩]
        Settings.SIMILARITY_THRESHOLD Settings.VOTING_THRESHOLD).vote_percentage
        = groupRatio (fun _ _ : ℕ => (1 : ℚ)/2) 0 Settings.SIMILARITY_THRESHOLD g ∧
      (∀ x ∈ l₁, groupRatio (fun _ _ : ℕ => (1 : ℚ)/2) 0 Settings.SIMILARITY_THRESHOLD x
        < groupRatio (fun _ _ : ℕ => (1 : ℚ)/2) 0 Settings.SIMILARITY_THRESHOLD g) ∧
      (∀ x ∈ l₂, groupRatio (fun _ _ : ℕ => (1 : ℚ)/2) 0 Settings.SIMILARITY_THRESHOLD x
        ≤ groupRatio (fun _ _ : ℕ => (1 : ℚ)/2) 0 Settings.SIMILARITY_THRESHOLD g) :=
  recognize_face_picks_first_max_ratio (fun _ _ : ℕ => (1 : ℚ)/2) 0 [⟨"W", "w", 0, true⟩]
    Settings.SIMILARITY_THRESHOLD Settings.VOTING_THRESHOLD
    ⟨⟨"W", "w", [0]⟩, by decide,
      by norm_num [groupRatio, groupVotes, groupSims, List.countP, List.countP.go,
        Settings.SIMILARITY_THRESHOLD]⟩

/-! ## C7: the ⌈0.60·K⌉ voting boundary -/

/-- When exactly one group has a positive vote percentage, the
selection loop picks it. -/
theorem pickFirstMax_unique_pos {β : Type} (f : β → ℚ) (l l₁ l₂ : List β) (g : β)
    (hsplit : l = l₁ ++ g :: l₂) (hzero : ∀ x ∈ l₁ ++ l₂, f x = 0) (hg : 0 < f g) :
    pickFirstMax f l (none, 0) = (some g, f g) := by
  have hmem : g ∈ l := by
    rw [hsplit]
    exact List.mem_append_right _ (List.mem_cons_self _ _)
  obtain ⟨m₁, a, m₂, _, heq, hpos, _, _⟩ := pickFirstMax_pos f l ⟨g, hmem, hg⟩
  have ha : a ∈ l := by
    have : a ∈ m₁ ++ a :: m₂ := List.mem_append_right _ (List.mem_cons_self _ _)
    rwa [← ‹l = m₁ ++ a :: m₂›] at this
  rw [hsplit] at ha
  rcases List.mem_append.mp ha with h₁ | hrest
  · exact absurd (hzero a (List.mem_append_left _ h₁)) (ne_of_gt hpos)
  · rcases List.mem_cons.mp hrest with rfl | h₂
    · exact heq
    · exact absurd (hzero a (List.mem_append_right _ h₂)) (ne_of_gt hpos)

/-- C7 counterexample: identity I has K = 1 enrolled embedding,
`⌈0.60·1⌉ − 1 = 0` of them above the similarity threshold, and no other
active identity has any above it.  The claim requires `NO_MATCH`; the
matcher returns `UNKNOWN` with no candidate, because with zero
agreeing embeddings no best candidate is ever selected. -/
theorem recognize_face_boundary_k1_cex :
    (⌈(3 : ℚ)/5 * 1⌉₊ - 1 = 0)
    ∧ (groupVotes (fun _ _ : ℕ => (1 : ℚ)/5) 0 Settings.SIMILARITY_THRESHOLD
        ⟨"I", "i", [0]⟩ = 0)
    ∧ (groupVotes (fun _ _ : ℕ => (1 : ℚ)/5) 0 Settings.SIMILARITY_THRESHOLD
        ⟨"J", "j", [1]⟩ = 0)
    ∧ (groupByPerson [(⟨"I", "i", 0, true⟩ : RegisteredEmbedding ℕ), ⟨"J", "j", 1, true⟩]
        = [⟨"I", "i", [0]⟩, ⟨"J", "j", [1]⟩])
    ∧ ((recognize_face (fun _ _ : ℕ => (1 : ℚ)/5) 0
        [⟨"I", "i", 0, true⟩, ⟨"J", "j", 1, true⟩]
        Settings.SIMILARITY_THRESHOLD Settings.VOTING_THRESHOLD).decision = Decision.UNKNOWN)
    ∧ Decision.UNKNOWN ≠ Decision.NO_MATCH := by
  refine ⟨?_, ?_, ?_, by decide, ?_, by decide⟩ <;>
    norm_num [recognize_face, groupByPerson, addToGroups, pickFirstMax, groupRatio, groupVotes,
      groupSims, List.countP, List.countP.go, Settings.SIMILARITY_THRESHOLD,
      Settings.VOTING_THRESHOLD]

/-- C7 (amended): for an identity whose group has K embeddings of which
exactly `⌈0.60·K⌉` are strictly above the similarity threshold while
every other group has none above it, the matcher returns `MATCH` for
that identity; with one fewer agreeing embedding it returns `NO_MATCH`
for that identity provided K ≥ 2 (for K = 1 the reduced count is zero
and the matcher returns `UNKNOWN`, as the counterexample shows). -/
theorem recognize_face_ceil_boundary {α : Type} (sim : α → α → ℚ) (query : α)
    (regs : List (RegisteredEmbedding α)) (sthr : ℚ)
    (l₁ l₂ : List (PersonGroup α)) (g : PersonGroup α)
    (hsplit : groupByPerson regs = l₁ ++ g :: l₂)
    (hothers : ∀ x ∈ l₁ ++ l₂, groupVotes sim query sthr x = 0) :
    (groupVotes sim query sthr g = ⌈(3 : ℚ)/5 * g.embeddings.length⌉₊ →
      (recognize_face sim query regs sthr Settings.VOTING_THRESHOLD).decision = Decision.MATCH
      ∧ (recognize_face sim query regs sthr Settings.VOTING_THRESHOLD).person_id
          = some g.person_id)
    ∧ (2 ≤ g.embeddings.length →
        groupVotes sim query sthr g = ⌈(3 : ℚ)/5 * g.embeddings.length⌉₊ - 1 →
        (recognize_face sim query regs sthr Settings.VOTING_THRESHOLD).decision
          = Decision.NO_MATCH
        ∧ (recognize_face sim query regs sthr Settings.VOTING_THRESHOLD).person_id
            = some g.person_id) := by
  have hmem : g ∈ groupByPerson regs := by
    rw [hsplit]
    exact List.mem_append_right _ (List.mem_cons_self _ _)
  have hKpos : 0 < g.embeddings.length :=
    List.length_pos.mpr (groupByPerson_ne regs g hmem)
  have hKposQ : (0 : ℚ) < (g.embeddings.length : ℚ) := by exact_mod_cast hKpos
  have hzero : ∀ x ∈ l₁ ++ l₂, groupRatio sim query sthr x = 0 := by
    intro x hx
    simp [groupRatio, hothers x hx]
  constructor
  · intro hc
    have hcpos : 0 < groupVotes sim query sthr g := by
      rw [hc]
      exact Nat.ceil_pos.mpr (by positivity)
    have hratio : 0 < groupRatio sim query sthr g := by
      unfold groupRatio
      positivity
    have heq := pickFirstMax_unique_pos (groupRatio sim query sthr) (groupByPerson regs)
      l₁ l₂ g hsplit hzero hratio
    have hp : (pickFirstMax (groupRatio sim query sthr) (groupByPerson regs) (none, 0)).1
        = some g := by rw [heq]
    rw [recognize_face_some hp]
    have hpick2 : (pickFirstMax (groupRatio sim query sthr) (groupByPerson regs) (none, 0)).2
        = groupRatio sim query sthr g := by rw [heq]
    have hthr : Settings.VOTING_THRESHOLD ≤ groupRatio sim query sthr g := by
      have hle : ((3 : ℚ)/5 * g.embeddings.length) ≤ (groupVotes sim query sthr g : ℚ) := by
        rw [hc]
        exact Nat.le_ceil _
      have : (3 : ℚ)/5 ≤ groupRatio sim query sthr g := by
        rw [groupRatio, le_div_iff₀ hKposQ]
        exact hle
      calc Settings.VOTING_THRESHOLD = (3 : ℚ)/5 := by norm_num [Settings.VOTING_THRESHOLD]
        _ ≤ _ := this
    simp [hpick2, hthr]
  · intro hK2 hc
    have hc2 : 2 ≤ ⌈(3 : ℚ)/5 * g.embeddings.length⌉₊ := by
      have h65 : (1 : ℚ) < (3 : ℚ)/5 * g.embeddings.length := by
        have : (2 : ℚ) ≤ (g.embeddings.length : ℚ) := by exact_mod_cast hK2
        nlinarith
      exact Nat.lt_ceil.mpr h65
    have hcpos : 0 < groupVotes sim query sthr g := by
      rw [hc]
      omega
    have hratio : 0 < groupRatio sim query sthr g := by
      unfold groupRatio
      positivity
    have heq := pickFirstMax_unique_pos (groupRatio sim query sthr) (groupByPerson regs)
      l₁ l₂ g hsplit hzero hratio
    have hp : (pickFirstMax (groupRatio sim query sthr) (groupByPerson regs) (none, 0)).1
        = some g := by rw [heq]
    rw [recognize_face_some hp]
    have hpick2 : (pickFirstMax (groupRatio sim query sthr) (groupByPerson regs) (none, 0)).2
        = groupRatio sim query sthr g := by rw [heq]
    have hthr : groupRatio sim query sthr g < Settings.VOTING_THRESHOLD := by
      have hcast : (groupVotes sim query sthr g : ℚ)
          = (⌈(3 : ℚ)/5 * g.embeddings.length⌉₊ : ℚ) - 1 := by
        rw [hc]
        push_cast [Nat.cast_sub (by omega : 1 ≤ ⌈(3 : ℚ)/5 * g.embeddings.length⌉₊)]
        ring
      have hlt : (groupVotes sim query sthr g : ℚ) < (3 : ℚ)/5 * g.embeddings.length := by
        rw [hcast]
        have := Nat.ceil_lt_add_one (by positivity : (0 : ℚ) ≤ (3 : ℚ)/5 * g.embeddings.length)
        linarith
      have : groupRatio sim query sthr g < (3 : ℚ)/5 := by
        rw [groupRatio, div_lt_iff₀ hKposQ]
        linarith [hlt]
      calc groupRatio sim query sthr g < (3 : ℚ)/5 := this
        _ = Settings.VOTING_THRESHOLD := by norm_num [Settings.VOTING_THRESHOLD]
    simp [hpick2, not_le.mpr hthr]

/-- C7 amended-theorem witness: identity E1 with five embeddings, three
of them (= ⌈0.60·5⌉) at similarity 9/10, yields `MATCH` for E1. -/
theorem recognize_face_ceil_boundary_witness :
    (recognize_face (fun _ e : ℕ => if e < 3 then (9 : ℚ)/10 else (1 : ℚ)/5) 0
      [⟨"E1", "e", 0, true⟩, ⟨"E1", "e", 1, true⟩, ⟨"E1", "e", 2, true⟩,
        ⟨"E1", "e", 3, true⟩, ⟨"E1", "e", 4, true⟩]
      Settings.SIMILARITY_THRESHOLD Settings.VOTING_THRESHOLD).decision = Decision.MATCH
    ∧ (recognize_face (fun _ e : ℕ => if e < 3 then (9 : ℚ)/10 else (1 : ℚ)/5) 0
      [⟨"E1", "e", 0, true⟩, ⟨"E1", "e", 1, true⟩, ⟨"E1", "e", 2, true⟩,
        ⟨"E1", "e", 3, true⟩, ⟨"E1", "e", 4, true⟩]
      Settings.SIMILARITY_THRESHOLD Settings.VOTING_THRESHOLD).person_id = some "E1" :=
  (recognize_face_ceil_boundary (fun _ e : ℕ => if e < 3 then (9 : ℚ)/10 else (1 : ℚ)/5) 0
      [⟨"E1", "e", 0, true⟩, ⟨"E1", "e", 1, true⟩, ⟨"E1", "e", 2, true⟩,
        ⟨"E1", "e", 3, true⟩, ⟨"E1", "e", 4, true⟩]
      Settings.SIMILARITY_THRESHOLD [] [] ⟨"E1", "e", [0, 1, 2, 3, 4]⟩
      (by decide) (by simp)).1
    (by
      norm_num [groupVotes, groupSims, List.countP, List.countP.go,
        Settings.SIMILARITY_THRESHOLD])

/-! ## Temporal-verifier lemmas and claims C10, C5, C6 -/

theorem insertVote_ne_nil (pid : Option String) (r : RecognitionResult)
    (l : List (Option String × List RecognitionResult)) : insertVote pid r l ≠ [] := by
  cases l with
  | nil => simp [insertVote]
  | cons e rest =>
    obtain ⟨k, rs⟩ := e
    simp only [insertVote]
    split <;> simp

theorem lookupVotes_insertVote (l : List (Option String × List RecognitionResult))
    (pid : Option String) (r : RecognitionResult) (k : Option String) :
    lookupVotes (insertVote pid r l) k =
      if k = pid then lookupVotes l k ++ [r] else lookupVotes l k := by
  induction l with
  | nil =>
    simp only [insertVote, lookupVotes]
    by_cases h : pid = k
    · subst h
      simp
    · rw [if_neg h, if_neg (fun hh => h hh.symm)]
  | cons e rest ih =>
    obtain ⟨k', rs⟩ := e
    simp only [insertVote]
    by_cases h1 : k' = pid
    · rw [if_pos h1]
      simp only [lookupVotes]
      by_cases h2 : k' = k
      · have hkp : k = pid := by rw [← h2, h1]
        rw [if_pos h2, if_pos hkp, if_pos h2]
      · have hkp : ¬ k = pid := by
          intro hk
          exact h2 (by rw [h1, ← hk])
        rw [if_neg h2, if_neg hkp, if_neg h2]
    · rw [if_neg h1]
      simp only [lookupVotes]
      by_cases h2 : k' = k
      · have hkp : ¬ k = pid := by
          intro hk
          exact h1 (by rw [h2, hk])
        rw [if_pos h2, if_neg hkp, if_pos h2]
      · rw [if_neg h2, ih, if_neg h2]

theorem lookupVotes_collect (vs : List FrameVerification)
    (acc : List (Option String × List RecognitionResult)) (k : Option String) :
    lookupVotes (vs.foldl (fun acc fv =>
        if fv.result.decision = Decision.MATCH then insertVote fv.result.person_id fv.result acc
        else acc) acc) k
      = lookupVotes acc k ++ matchResults vs k := by
  induction vs generalizing acc with
  | nil => simp [matchResults]
  | cons fv rest ih =>
    simp only [List.foldl_cons]
    by_cases hm : fv.result.decision = Decision.MATCH
    · rw [if_pos hm, ih, lookupVotes_insertVote]
      by_cases hk : k = fv.result.person_id
      · rw [if_pos hk]
        have : matchResults (fv :: rest) k = fv.result :: matchResults rest k := by
          simp [matchResults, hm, hk.symm]
        rw [this]
        simp
      · rw [if_neg hk]
        have hne : fv.result.person_id ≠ k := fun h => hk h.symm
        have : matchResults (fv :: rest) k = matchResults rest k := by
          simp [matchResults, hm, hne]
        rw [this]
    · rw [if_neg hm, ih]
      have : matchResults (fv :: rest) k = matchResults rest k := by
        simp [matchResults, hm]
      rw [this]

theorem insertVote_keys (pid : Option String) (r : RecognitionResult)
    (l : List (Option String × List RecognitionResult)) :
    (insertVote pid r l).map Prod.fst
      = if pid ∈ l.map Prod.fst then l.map Prod.fst else l.map Prod.fst ++ [pid] := by
  induction l with
  | nil => simp [insertVote]
  | cons e rest ih =>
    obtain ⟨k', rs⟩ := e
    simp only [insertVote]
    by_cases h : k' = pid
    · subst h
      simp
    · rw [if_neg h]
      simp only [List.map_cons, ih]
      by_cases h2 : pid ∈ rest.map Prod.fst
      · simp [h2, Ne.symm h]
      · simp [h2, Ne.symm h]

theorem insertVote_keys_nodup (pid : Option String) (r : RecognitionResult)
    (l : List (Option String × List RecognitionResult))
    (h : (l.map Prod.fst).Nodup) : ((insertVote pid r l).map Prod.fst).Nodup := by
  rw [insertVote_keys]
  by_cases hmem : pid ∈ l.map Prod.fst
  · rwa [if_pos hmem]
  · rw [if_neg hmem]
    exact List.Nodup.append h (List.nodup_singleton _) (by simpa using hmem)

theorem collectVotes_keys_nodup (vs : List FrameVerification) :
    ((collectVotes vs).map Prod.fst).Nodup := by
  have key : ∀ (l : List FrameVerification) (acc : List (Option String × List RecognitionResult)),
      (acc.map Prod.fst).Nodup →
      ((l.foldl (fun acc fv =>
          if fv.result.decision = Decision.MATCH then insertVote fv.result.person_id fv.result acc
          else acc) acc).map Prod.fst).Nodup := by
    intro l
    induction l with
    | nil => intro acc h; simpa using h
    | cons fv rest ih =>
      intro acc h
      simp only [List.foldl_cons]
      by_cases hm : fv.result.decision = Decision.MATCH
      · rw [if_pos hm]
        exact ih _ (insertVote_keys_nodup _ _ _ h)
      · rw [if_neg hm]
        exact ih _ h
  exact key vs [] (by simp)

theorem lookupVotes_not_key (l : List (Option String × List RecognitionResult))
    (k : Option String) (h : k ∉ l.map Prod.fst) : lookupVotes l k = [] := by
  induction l with
  | nil => rfl
  | cons e rest ih =>
    obtain ⟨k', rs⟩ := e
    simp only [List.map_cons, List.mem_cons] at h
    push_neg at h
    simp only [lookupVotes]
    rw [if_neg (fun hh => h.1 hh.symm), ih h.2]

theorem mem_lookupVotes (l : List (Option String × List RecognitionResult))
    (e : Option String × List RecognitionResult)
    (hnd : (l.map Prod.fst).Nodup) (hmem : e ∈ l) : lookupVotes l e.1 = e.2 := by
  induction l with
  | nil => cases hmem
  | cons x rest ih =>
    obtain ⟨k', rs⟩ := x
    simp only [List.map_cons, List.nodup_cons] at hnd
    rcases List.mem_cons.mp hmem with rfl | hmem
    · simp [lookupVotes]
    · have hne : k' ≠ e.1 := by
        intro hh
        exact hnd.1 (hh ▸ List.mem_map_of_mem Prod.fst hmem)
      simp only [lookupVotes]
      rw [if_neg hne]
      exact ih hnd.2 hmem

theorem collect_entry_ne_nil (vs : List FrameVerification) :
    ∀ e ∈ collectVotes vs, e.2 ≠ [] := by
  have hins : ∀ (l : List (Option String × List RecognitionResult)) pid r,
      (∀ e ∈ l, e.2 ≠ []) → ∀ e ∈ insertVote pid r l, e.2 ≠ [] := by
    intro l
    induction l with
    | nil =>
      intro pid r _ e he
      simp only [insertVote, List.mem_singleton] at he
      subst he
      simp
    | cons x rest ih =>
      intro pid r h e he
      obtain ⟨k', rs⟩ := x
      simp only [insertVote] at he
      by_cases hk : k' = pid
      · rw [if_pos hk] at he
        rcases List.mem_cons.mp he with rfl | he
        · simp
        · exact h e (List.mem_cons_of_mem _ he)
      · rw [if_neg hk] at he
        rcases List.mem_cons.mp he with rfl | he
        · exact h _ (List.mem_cons_self _ _)
        · exact ih pid r (fun e' he' => h e' (List.mem_cons_of_mem _ he')) e he
  have key : ∀ (l : List FrameVerification) (acc : List (Option String × List RecognitionResult)),
      (∀ e ∈ acc, e.2 ≠ []) →
      ∀ e ∈ l.foldl (fun acc fv =>
          if fv.result.decision = Decision.MATCH then insertVote fv.result.person_id fv.result acc
          else acc) acc, e.2 ≠ [] := by
    intro l
    induction l with
    | nil => intro acc h; simpa using h
    | cons fv rest ih =>
      intro acc h
      simp only [List.foldl_cons]
      by_cases hm : fv.result.decision = Decision.MATCH
      · rw [if_pos hm]
        exact ih _ (hins acc _ _ h)
      · rw [if_neg hm]
        exact ih _ h
  exact key vs [] (by simp)

theorem collect_nil_of_no_match (vs : List FrameVerification)
    (h : ∀ fv ∈ vs, fv.result.decision ≠ Decision.MATCH) : collectVotes vs = [] := by
  have key : ∀ (l : List FrameVerification) (acc : List (Option String × List RecognitionResult)),
      (∀ fv ∈ l, fv.result.decision ≠ Decision.MATCH) →
      l.foldl (fun acc fv =>
          if fv.result.decision = Decision.MATCH then insertVote fv.result.person_id fv.result acc
          else acc) acc = acc := by
    intro l
    induction l with
    | nil => intro acc _; rfl
    | cons fv rest ih =>
      intro acc hl
      simp only [List.foldl_cons]
      rw [if_neg (hl fv (List.mem_cons_self _ _))]
      exact ih acc (fun x hx => hl x (List.mem_cons_of_mem _ hx))
  exact key vs [] h

theorem collect_ne_nil_of_match (vs : List FrameVerification)
    (h : ∃ fv ∈ vs, fv.result.decision = Decision.MATCH) : collectVotes vs ≠ [] := by
  have hkeep : ∀ (l : List FrameVerification)
      (acc : List (Option String × List RecognitionResult)), acc ≠ [] →
      l.foldl (fun acc fv =>
          if fv.result.decision = Decision.MATCH then insertVote fv.result.person_id fv.result acc
          else acc) acc ≠ [] := by
    intro l
    induction l with
    | nil => intro acc h; simpa using h
    | cons fv rest ih =>
      intro acc hacc
      simp only [List.foldl_cons]
      by_cases hm : fv.result.decision = Decision.MATCH
      · rw [if_pos hm]
        exact ih _ (insertVote_ne_nil _ _ _)
      · rw [if_neg hm]
        exact ih _ hacc
  have key : ∀ (l : List FrameVerification)
      (acc : List (Option String × List RecognitionResult)),
      (∃ fv ∈ l, fv.result.decision = Decision.MATCH) →
      l.foldl (fun acc fv =>
          if fv.result.decision = Decision.MATCH then insertVote fv.result.person_id fv.result acc
          else acc) acc ≠ [] := by
    intro l
    induction l with
    | nil => intro acc h; simp at h
    | cons fv rest ih =>
      intro acc hex
      simp only [List.foldl_cons]
      by_cases hm : fv.result.decision = Decision.MATCH
      · rw [if_pos hm]
        exact hkeep _ _ (insertVote_ne_nil _ _ _)
      · rw [if_neg hm]
        obtain ⟨x, hx, hxm⟩ := hex
        rcases List.mem_cons.mp hx with rfl | hx
        · exact absurd hxm hm
        · exact ih acc ⟨x, hx, hxm⟩
  exact key vs [] h

theorem maxVotes_spec (l : List (Option String × List RecognitionResult))
    (e : Option String × List RecognitionResult) :
    ∃ l₁ l₂, e :: l = l₁ ++ (maxVotes e l) :: l₂ ∧
      (∀ x ∈ l₁, x.2.length < (maxVotes e l).2.length) ∧
      (∀ x ∈ l₂, x.2.length ≤ (maxVotes e l).2.length) := by
  induction l generalizing e with
  | nil => exact ⟨[], [], rfl, by simp, by simp⟩
  | cons x xs ih =>
    have hunfold : maxVotes e (x :: xs)
        = maxVotes (if e.2.length < x.2.length then x else e) xs := rfl
    by_cases h : e.2.length < x.2.length
    · rw [hunfold, if_pos h]
      obtain ⟨l₁, l₂, hsplit, h₁, h₂⟩ := ih x
      have hall : ∀ y ∈ x :: xs, y.2.length ≤ (maxVotes x xs).2.length := by
        intro y hy
        rw [hsplit] at hy
        rcases List.mem_append.mp hy with hy | hy
        · exact le_of_lt (h₁ y hy)
        · rcases List.mem_cons.mp hy with rfl | hy
          · exact le_refl _
          · exact h₂ y hy
      have hx : x.2.length ≤ (maxVotes x xs).2.length := hall x (List.mem_cons_self _ _)
      refine ⟨e :: l₁, l₂, by simp [hsplit], ?_, h₂⟩
      intro y hy
      rcases List.mem_cons.mp hy with rfl | hy
      · exact lt_of_lt_of_le h hx
      · exact h₁ y hy
    · rw [hunfold, if_neg h]
      obtain ⟨l₁, l₂, hsplit, h₁, h₂⟩ := ih e
      set m := maxVotes e xs with hm_def
      cases l₁ with
      | nil =>
        rw [List.nil_append] at hsplit
        injection hsplit with hm hl
        refine ⟨[], x :: l₂, ?_, by simp, ?_⟩
        · rw [List.nil_append, ← hm, ← hl]
        · intro y hy
          rcases List.mem_cons.mp hy with rfl | hy
          · rw [← hm]
            exact not_lt.mp h
          · exact h₂ y hy
      | cons a l₁' =>
        rw [List.cons_append] at hsplit
        injection hsplit with ha hxs
        have hea : a.2.length < (maxVotes e xs).2.length := h₁ a (List.mem_cons_self _ _)
        have he : e.2.length < (maxVotes e xs).2.length := ha ▸ hea
        refine ⟨e :: x :: l₁', l₂, by simp [hxs], ?_, h₂⟩
        intro y hy
        rcases List.mem_cons.mp hy with rfl | hy
        · exact he
        · rcases List.mem_cons.mp hy with rfl | hy
          · exact lt_of_le_of_lt (not_lt.mp h) he
          · exact h₁ y (List.mem_cons_of_mem _ hy)

theorem lookupVotes_collectVotes (vs : List FrameVerification) (k : Option String) :
    lookupVotes (collectVotes vs) k = matchResults vs k := by
  have h := lookupVotes_collect vs [] k
  simpa [collectVotes, lookupVotes] using h

theorem voteAcrossFrames_of_nil (vs : List FrameVerification)
    (h : collectVotes vs = []) :
    voteAcrossFrames vs = ⟨none, none, 0, 0, vs.length, 0, Decision.NO_MATCH⟩ := by
  simp only [voteAcrossFrames]
  rw [h]

theorem voteAcrossFrames_of_cons (vs : List FrameVerification)
    (e : Option String × List RecognitionResult)
    (rest : List (Option String × List RecognitionResult))
    (h : collectVotes vs = e :: rest) :
    voteAcrossFrames vs =
      { person_id := (maxVotes e rest).1
        full_name := (maxVotes e rest).2.headI.full_name
        similarity := ((maxVotes e rest).2.map RecognitionResult.similarity).sum
          / ((maxVotes e rest).2.length : ℚ)
        vote_count := (maxVotes e rest).2.length
        total_embeddings := vs.length
        vote_percentage := ((maxVotes e rest).2.length : ℚ) / (vs.length : ℚ)
        decision := if 1 / 2 < ((maxVotes e rest).2.length : ℚ) / (vs.length : ℚ)
          then Decision.MATCH else Decision.NO_MATCH } := by
  simp only [voteAcrossFrames]
  rw [h]

theorem maxVotes_le (l : List (Option String × List RecognitionResult))
    (e : Option String × List RecognitionResult) :
    ∀ y ∈ e :: l, y.2.length ≤ (maxVotes e l).2.length := by
  obtain ⟨l₁, l₂, hsplit, h₁, h₂⟩ := maxVotes_spec l e
  intro y hy
  rw [hsplit] at hy
  rcases List.mem_append.mp hy with hy | hy
  · exact le_of_lt (h₁ y hy)
  · rcases List.mem_cons.mp hy with rfl | hy
    · exact le_refl _
    · exact h₂ y hy

theorem voteBest_mem (vs : List FrameVerification)
    (e : Option String × List RecognitionResult)
    (rest : List (Option String × List RecognitionResult))
    (h : collectVotes vs = e :: rest) : maxVotes e rest ∈ collectVotes vs := by
  obtain ⟨l₁, l₂, hsplit, _, _⟩ := maxVotes_spec rest e
  rw [h, hsplit]
  exact List.mem_append_right _ (List.mem_cons_self _ _)

theorem voteBest_val (vs : List FrameVerification)
    (e : Option String × List RecognitionResult)
    (rest : List (Option String × List RecognitionResult))
    (h : collectVotes vs = e :: rest) :
    (maxVotes e rest).2 = matchResults vs (maxVotes e rest).1 := by
  have hmem := voteBest_mem vs e rest h
  have hval := mem_lookupVotes (collectVotes vs) (maxVotes e rest)
    (collectVotes_keys_nodup vs) hmem
  rw [lookupVotes_collectVotes] at hval
  exact hval.symm

theorem voteBest_max (vs : List FrameVerification)
    (e : Option String × List RecognitionResult)
    (rest : List (Option String × List RecognitionResult))
    (h : collectVotes vs = e :: rest) :
    ∀ pid, (matchResults vs pid).length ≤ (maxVotes e rest).2.length := by
  intro pid
  by_cases hk : pid ∈ (collectVotes vs).map Prod.fst
  · obtain ⟨ent, hent, hfst⟩ := List.mem_map.mp hk
    have hval := mem_lookupVotes _ ent (collectVotes_keys_nodup vs) hent
    rw [lookupVotes_collectVotes, hfst] at hval
    rw [hval]
    exact maxVotes_le rest e ent (h ▸ hent)
  · rw [← lookupVotes_collectVotes, lookupVotes_not_key _ _ hk]
    simp

theorem mem_matchResults (vs : List FrameVerification) (k : Option String)
    (r : RecognitionResult) (h : r ∈ matchResults vs k) :
    r.decision = Decision.MATCH ∧ r.person_id = k ∧ ∃ fv ∈ vs, fv.result = r := by
  simp only [matchResults, List.mem_filter, List.mem_map, Bool.and_eq_true,
    decide_eq_true_eq] at h
  exact ⟨h.2.1, h.2.2, h.1⟩

theorem recentObs_subset (rr : Bool) (now ma : ℚ) (fr : ℕ)
    (hist : List FrameVerification) (fv : FrameVerification)
    (h : fv ∈ recentObs rr now ma fr hist) : fv ∈ hist := by
  have h1 := List.mem_of_mem_take h
  have h2 := List.mem_of_mem_filter h1
  exact List.mem_reverse.mp h2

theorem lookupTrack_mem (hist : List (String × List FrameVerification)) (tid : String)
    (h : List FrameVerification) (hl : lookupTrack hist tid = some h) : (tid, h) ∈ hist := by
  induction hist with
  | nil => cases hl
  | cons e rest ih =>
    obtain ⟨k, h'⟩ := e
    simp only [lookupTrack] at hl
    by_cases hk : k = tid
    · rw [if_pos hk] at hl
      injection hl with hl
      subst hk
      subst hl
      exact List.mem_cons_self _ _
    · rw [if_neg hk] at hl
      exact List.mem_cons_of_mem _ (ih hl)

theorem verify_identity_some (v : MultiFrameVerifier) (now : ℚ) (tid : String)
    (rr : Bool) (r : RecognitionResult)
    (h : (v.verify_identity now tid rr).1 = some r) :
    ∃ hist, lookupTrack v.verification_history tid = some hist ∧
      (recentObs rr now (v.verification_interval * ((v.verification_frames : ℚ) - 1) + 5)
          v.verification_frames hist).length = v.verification_frames ∧
      r = voteAcrossFrames
        (recentObs rr now (v.verification_interval * ((v.verification_frames : ℚ) - 1) + 5)
          v.verification_frames hist) := by
  unfold MultiFrameVerifier.verify_identity at h
  cases hl : lookupTrack v.verification_history tid with
  | none => rw [hl] at h; cases h
  | some hist =>
    rw [hl] at h
    simp only at h
    by_cases h1 : hist.length < v.verification_frames
    · rw [if_pos h1] at h
      cases h
    · rw [if_neg h1] at h
      by_cases h2 : (recentObs rr now
          (v.verification_interval * ((v.verification_frames : ℚ) - 1) + 5)
          v.verification_frames hist).length < v.verification_frames
      · rw [if_pos h2] at h
        cases h
      · rw [if_neg h2] at h
        injection h with h
        refine ⟨hist, rfl, ?_, h.symm⟩
        have hle : (recentObs rr now
            (v.verification_interval * ((v.verification_frames : ℚ) - 1) + 5)
            v.verification_frames hist).length ≤ v.verification_frames := by
          simp [recentObs]
        omega


theorem matchResults_nil_of_no_match (vs : List FrameVerification) (pid : Option String)
    (h : ∀ fv ∈ vs, fv.result.decision ≠ Decision.MATCH) : matchResults vs pid = [] := by
  rw [matchResults, List.filter_eq_nil_iff]
  intro r hr
  obtain ⟨fv, hfv, rfl⟩ := List.mem_map.mp hr
  simp [h fv hfv]

/-- C10: `verify_identity` is read-only on the verifier state, and
repeating the call with the same history and clock yields the same
result. -/
theorem verify_identity_readonly (v : MultiFrameVerifier) (now : ℚ) (tid : String)
    (rr : Bool) :
    (v.verify_identity now tid rr).2 = v ∧
    (v.verify_identity now tid rr).1
      = (((v.verify_identity now tid rr).2).verify_identity now tid rr).1 := by
  have h2 : (v.verify_identity now tid rr).2 = v := by
    unfold MultiFrameVerifier.verify_identity
    cases lookupTrack v.verification_history tid with
    | none => rfl
    | some history =>
      simp only
      split
      · rfl
      · split <;> rfl
  exact ⟨h2, by rw [h2]⟩

/-- C5 counterexample: a verifier configured with
`verification_frames = 7` and a track with four MATCH observations for
A among seven produces a MATCH FrameDecision whose agreement ratio is
4/7, strictly below `VotingThreshold = 0.60`. -/
theorem verifier_match_below_threshold_cex :
    ((⟨7, 1, 30, [("T", [⟨0, mkMatch "A" (9/10)⟩, ⟨1, mkNoMatch⟩, ⟨2, mkMatch "A" (9/10)⟩,
        ⟨3, mkNoMatch⟩, ⟨4, mkMatch "A" (9/10)⟩, ⟨5, mkNoMatch⟩,
        ⟨6, mkMatch "A" (9/10)⟩])]⟩ : MultiFrameVerifier).verify_identity 6 "T" true).1
      = some ⟨some "A", some "A", 9/10, 4, 7, 4/7, Decision.MATCH⟩
    ∧ (4 : ℚ)/7 < Settings.VOTING_THRESHOLD := by
  constructor
  · norm_num [MultiFrameVerifier.verify_identity, lookupTrack, recentObs, voteAcrossFrames,
      collectVotes, insertVote, maxVotes, mkMatch, mkNoMatch, List.filter, List.take,
      List.foldl]
  · norm_num [Settings.VOTING_THRESHOLD]

/-- C5 (amended): every MATCH decision of the per-frame matcher has a
present identity and an agreement ratio at least the voting threshold;
every MATCH decision of the temporal verifier (over observations whose
MATCH results carry an identity, as the per-frame matcher guarantees)
has a present identity and an agreement ratio strictly above 1/2 —
which is all the verifier guarantees, and is below `VotingThreshold`
for some configurations. -/
theorem match_decision_invariant :
    (∀ {α : Type} (sim : α → α → ℚ) (query : α) (regs : List (RegisteredEmbedding α))
        (sthr vthr : ℚ),
        (recognize_face sim query regs sthr vthr).decision = Decision.MATCH →
        (recognize_face sim query regs sthr vthr).person_id.isSome = true ∧
          vthr ≤ (recognize_face sim query regs sthr vthr).vote_percentage)
    ∧ (∀ (v : MultiFrameVerifier) (now : ℚ) (tid : String) (rr : Bool)
        (r : RecognitionResult),
        (∀ t ∈ v.verification_history, ∀ fv ∈ t.2,
          fv.result.decision = Decision.MATCH → fv.result.person_id.isSome = true) →
        (v.verify_identity now tid rr).1 = some r →
        r.decision = Decision.MATCH →
        r.person_id.isSome = true ∧ 1 / 2 < r.vote_percentage) := by
  constructor
  · intro α sim query regs sthr vthr hm
    cases hp : (pickFirstMax (groupRatio sim query sthr) (groupByPerson regs) (none, 0)).1 with
    | none =>
      rw [recognize_face_none hp] at hm
      cases hm
    | some g =>
      rw [recognize_face_some hp] at hm ⊢
      by_cases hv : vthr ≤ (pickFirstMax (groupRatio sim query sthr)
          (groupByPerson regs) (none, 0)).2
      · exact ⟨rfl, hv⟩
      · rw [if_neg hv] at hm
        cases hm
  · intro v now tid rr r hsound hsome hm
    obtain ⟨hist, hl, hlen, hr⟩ := verify_identity_some v now tid rr r hsome
    set recent := recentObs rr now
      (v.verification_interval * ((v.verification_frames : ℚ) - 1) + 5)
      v.verification_frames hist with hrecent
    cases hc : collectVotes recent with
    | nil =>
      rw [hr, voteAcrossFrames_of_nil recent hc] at hm
      cases hm
    | cons e rest =>
      rw [hr, voteAcrossFrames_of_cons recent e rest hc] at hm ⊢
      simp only at hm ⊢
      by_cases hhalf : 1 / 2 < ((maxVotes e rest).2.length : ℚ) / (recent.length : ℚ)
      · refine ⟨?_, hhalf⟩
        have hne : (maxVotes e rest).2 ≠ [] :=
          collect_entry_ne_nil recent (maxVotes e rest) (voteBest_mem recent e rest hc)
        obtain ⟨r₀, hr₀⟩ := List.exists_mem_of_ne_nil _ hne
        rw [voteBest_val recent e rest hc] at hr₀
        obtain ⟨hdec, hpid, fv, hfv, hres⟩ := mem_matchResults recent _ r₀ hr₀
        have hfvh : fv ∈ hist := recentObs_subset _ _ _ _ _ _ hfv
        have htid : (tid, hist) ∈ v.verification_history :=
          lookupTrack_mem v.verification_history tid hist hl
        have := hsound (tid, hist) htid fv hfvh (by rw [hres]; exact hdec)
        rw [hres, hpid] at this
        exact this
      · rw [if_neg hhalf] at hm
        cases hm

/-- C5 amended-theorem witness: a registry with one identity at
similarity 1/2 gives a per-frame MATCH with ratio ≥ 0.60, and the
3-frame A,B,A track gives a temporal MATCH with ratio 2/3 > 1/2. -/
theorem match_decision_invariant_witness :
    ((recognize_face (fun _ _ : ℕ => (1 : ℚ)/2) 0 [⟨"P", "p", 0, true⟩]
        Settings.SIMILARITY_THRESHOLD Settings.VOTING_THRESHOLD).person_id.isSome = true ∧
      Settings.VOTING_THRESHOLD ≤ (recognize_face (fun _ _ : ℕ => (1 : ℚ)/2) 0
        [⟨"P", "p", 0, true⟩]
        Settings.SIMILARITY_THRESHOLD Settings.VOTING_THRESHOLD).vote_percentage)
    ∧ ((⟨some "A", some "A", 4/5, 2, 3, 2/3, Decision.MATCH⟩ :
        RecognitionResult).person_id.isSome = true ∧
      (1 : ℚ)/2 < (⟨some "A", some "A", 4/5, 2, 3, 2/3, Decision.MATCH⟩ :
        RecognitionResult).vote_percentage) :=
  ⟨match_decision_invariant.1 (fun _ _ : ℕ => (1 : ℚ)/2) 0 [⟨"P", "p", 0, true⟩]
      Settings.SIMILARITY_THRESHOLD Settings.VOTING_THRESHOLD
      (by norm_num [recognize_face, groupByPerson, addToGroups, pickFirstMax, groupRatio,
        groupVotes, groupSims, List.countP, List.countP.go, Settings.SIMILARITY_THRESHOLD,
        Settings.VOTING_THRESHOLD]),
   match_decision_invariant.2
      (⟨3, 1, 30, [("T", [⟨0, mkMatch "A" (9/10)⟩, ⟨1, mkMatch "B" (8/10)⟩,
        ⟨2, mkMatch "A" (7/10)⟩])]⟩ : MultiFrameVerifier) 2 "T" true
      ⟨some "A", some "A", 4/5, 2, 3, 2/3, Decision.MATCH⟩
      (by simp [mkMatch])
      (by norm_num [MultiFrameVerifier.verify_identity, lookupTrack, recentObs,
        voteAcrossFrames, collectVotes, insertVote, maxVotes, mkMatch, List.filter,
        List.take, List.foldl])
      rfl⟩

/-- C6: the temporal vote counts only MATCH observations grouped by
identity, picks the identity with the most votes (first maximum in
newest-first first-occurrence order, i.e. ties go to the identity with
the most recent MATCH), sets `agreement_ratio = votes / N_frames` and
`mean_similarity` to the mean over the winning observations, returns
MATCH iff the ratio exceeds 1/2, and with no MATCH observation returns
NO_MATCH with `total_embeddings = N_frames`; `verify_identity` always
feeds it exactly `verification_frames` observations.  The A,B,A and
A,B,C boundary examples evaluate as the claim states, and a 2-2 tie
between A and B goes to A, whose MATCH is the most recent. -/
theorem temporal_vote_spec :
    (∀ (v : MultiFrameVerifier) (now : ℚ) (tid : String) (rr : Bool)
        (r : RecognitionResult),
        (v.verify_identity now tid rr).1 = some r →
        ∃ ws : List FrameVerification, ws.length = v.verification_frames
          ∧ r = voteAcrossFrames ws)
    ∧ (∀ vs : List FrameVerification, (voteAcrossFrames vs).total_embeddings = vs.length)
    ∧ (∀ vs : List FrameVerification, (∀ fv ∈ vs, fv.result.decision ≠ Decision.MATCH) →
        voteAcrossFrames vs = ⟨none, none, 0, 0, vs.length, 0, Decision.NO_MATCH⟩)
    ∧ (∀ (vs : List FrameVerification) (pid : Option String),
        (matchResults vs pid).length ≤ (voteAcrossFrames vs).vote_count)
    ∧ (∀ vs : List FrameVerification, (∃ fv ∈ vs, fv.result.decision = Decision.MATCH) →
        (voteAcrossFrames vs).vote_count
            = (matchResults vs (voteAcrossFrames vs).person_id).length
        ∧ (voteAcrossFrames vs).vote_percentage
            = ((voteAcrossFrames vs).vote_count : ℚ) / (vs.length : ℚ)
        ∧ (voteAcrossFrames vs).similarity
            = ((matchResults vs (voteAcrossFrames vs).person_id).map
                RecognitionResult.similarity).sum
              / ((matchResults vs (voteAcrossFrames vs).person_id).length : ℚ))
    ∧ (∀ vs : List FrameVerification,
        (voteAcrossFrames vs).decision = Decision.MATCH ↔
          1 / 2 < (voteAcrossFrames vs).vote_percentage)
    ∧ ((⟨3, 1, 30, [("T", [⟨0, mkMatch "A" (9/10)⟩, ⟨1, mkMatch "B" (8/10)⟩,
          ⟨2, mkMatch "A" (7/10)⟩])]⟩ : MultiFrameVerifier).verify_identity 2 "T" true).1
        = some ⟨some "A", some "A", 4/5, 2, 3, 2/3, Decision.MATCH⟩
    ∧ ((⟨3, 1, 30, [("T", [⟨0, mkMatch "A" (9/10)⟩, ⟨1, mkMatch "B" (8/10)⟩,
          ⟨2, mkMatch "C" (7/10)⟩])]⟩ : MultiFrameVerifier).verify_identity 2 "T" true).1
        = some ⟨some "C", some "C", 7/10, 1, 3, 1/3, Decision.NO_MATCH⟩
    ∧ ((⟨3, 1, 30, [("T", [⟨0, mkNoMatch⟩, ⟨1, mkNoMatch⟩,
          ⟨2, mkNoMatch⟩])]⟩ : MultiFrameVerifier).verify_identity 2 "T" true).1
        = some ⟨none, none, 0, 0, 3, 0, Decision.NO_MATCH⟩
    ∧ ((⟨5, 1, 30, [("T", [⟨0, mkNoMatch⟩, ⟨1, mkMatch "B" (1/2)⟩, ⟨2, mkMatch "A" (1/2)⟩,
          ⟨3, mkMatch "B" (1/2)⟩, ⟨4, mkMatch "A" (1/2)⟩])]⟩
            : MultiFrameVerifier).verify_identity 4 "T" true).1
        = some ⟨some "A", some "A", 1/2, 2, 5, 2/5, Decision.NO_MATCH⟩ := by
  refine ⟨?_, ?_, ?_, ?_, ?_, ?_, ?_, ?_, ?_, ?_⟩
  · intro v now tid rr r h
    obtain ⟨hist, _, hlen, hr⟩ := verify_identity_some v now tid rr r h
    exact ⟨_, hlen, hr⟩
  · intro vs
    cases hc : collectVotes vs with
    | nil => rw [voteAcrossFrames_of_nil vs hc]
    | cons e rest => rw [voteAcrossFrames_of_cons vs e rest hc]
  · intro vs h
    exact voteAcrossFrames_of_nil vs (collect_nil_of_no_match vs h)
  · intro vs pid
    cases hc : collectVotes vs with
    | nil =>
      have hnm : ∀ fv ∈ vs, fv.result.decision ≠ Decision.MATCH := by
        intro fv hfv hm
        exact collect_ne_nil_of_match vs ⟨fv, hfv, hm⟩ hc
      rw [matchResults_nil_of_no_match vs pid hnm]
      simp
    | cons e rest =>
      rw [voteAcrossFrames_of_cons vs e rest hc]
      exact voteBest_max vs e rest hc pid
  · intro vs hex
    cases hc : collectVotes vs with
    | nil => exact absurd hc (collect_ne_nil_of_match vs hex)
    | cons e rest =>
      rw [voteAcrossFrames_of_cons vs e rest hc]
      refine ⟨?_, rfl, ?_⟩
      · simp only
        rw [← voteBest_val vs e rest hc]
      · simp only
        rw [← voteBest_val vs e rest hc]
  · intro vs
    cases hc : collectVotes vs with
    | nil =>
      rw [voteAcrossFrames_of_nil vs hc]
      simp
    | cons e rest =>
      rw [voteAcrossFrames_of_cons vs e rest hc]
      simp only
      constructor
      · intro hm
        by_cases hhalf : 1 / 2 < ((maxVotes e rest).2.length : ℚ) / (vs.length : ℚ)
        · exact hhalf
        · rw [if_neg hhalf] at hm
          cases hm
      · intro hhalf
        rw [if_pos hhalf]
  · norm_num [MultiFrameVerifier.verify_identity, lookupTrack, recentObs, voteAcrossFrames,
      collectVotes, insertVote, maxVotes, mkMatch, List.filter, List.take, List.foldl,
      show ("B" : String) ≠ "A" from by decide]
  · norm_num [MultiFrameVerifier.verify_identity, lookupTrack, recentObs, voteAcrossFrames,
      collectVotes, insertVote, maxVotes, mkMatch, List.filter, List.take, List.foldl,
      show ("B" : String) ≠ "A" from by decide, show ("C" : String) ≠ "A" from by decide,
      show ("C" : String) ≠ "B" from by decide]
  · norm_num [MultiFrameVerifier.verify_identity, lookupTrack, recentObs, voteAcrossFrames,
      collectVotes, insertVote, maxVotes, mkNoMatch, List.filter, List.take, List.foldl,
      show Decision.NO_MATCH ≠ Decision.MATCH from by decide]
  · norm_num [MultiFrameVerifier.verify_identity, lookupTrack, recentObs, voteAcrossFrames,
      collectVotes, insertVote, maxVotes, mkMatch, mkNoMatch, List.filter, List.take,
      List.foldl, show ("A" : String) ≠ "B" from by decide,
      show ("B" : String) ≠ "A" from by decide,
      show Decision.NO_MATCH ≠ Decision.MATCH from by decide]

/-- C6 witness: the no-MATCH clause applied to a single NO_MATCH
observation, and the counting clause applied to a single MATCH
observation. -/
theorem temporal_vote_spec_witness :
    voteAcrossFrames [⟨0, mkNoMatch⟩] = ⟨none, none, 0, 0, 1, 0, Decision.NO_MATCH⟩
    ∧ (voteAcrossFrames [⟨0, mkMatch "A" (9/10)⟩]).vote_count
        = (matchResults [⟨0, mkMatch "A" (9/10)⟩]
            (voteAcrossFrames [⟨0, mkMatch "A" (9/10)⟩]).person_id).length :=
  ⟨temporal_vote_spec.2.2.1 [⟨0, mkNoMatch⟩]
      (by
        intro fv hfv
        rw [List.mem_singleton] at hfv
        subst hfv
        simp [mkNoMatch]),
   (temporal_vote_spec.2.2.2.2.1 [⟨0, mkMatch "A" (9/10)⟩]
      ⟨⟨0, mkMatch "A" (9/10)⟩, List.mem_singleton_self _, rfl⟩).1⟩

/-! ## C2: reconnect backoff schedule -/

/-- The waits of `n` consecutive failures depend only on the current
delay, via `waitsFrom`. -/
theorem runFailures_waits (maxd : ℕ) (st : StreamRetryState) (n : ℕ) :
    (runFailures maxd st n).1 = waitsFrom maxd st.retry_delay n := by
  induction n generalizing st with
  | zero => rfl
  | succ n ih =>
    simp [runFailures, handle_connection_failure, waitsFrom, ih]

/-- The default schedule satisfies the update recurrence
`d ↦ min (int(d · 1.5)) 300`. -/
theorem defaultSchedule_step (k : ℕ) :
    defaultSchedule (k + 1) = min (defaultSchedule k * 3 / 2) 300 := by
  match k with
  | 0 => decide
  | 1 => decide
  | 2 => decide
  | 3 => decide
  | 4 => decide
  | 5 => decide
  | (j + 6) =>
    have h1 : defaultSchedule (j + 6) = 300 :=
      List.getD_eq_default _ _ (by simp)
    have h2 : defaultSchedule (j + 6 + 1) = 300 :=
      List.getD_eq_default _ _ (by simp)
    rw [h1, h2]
    decide

/-- Waits starting at `defaultSchedule j` follow the schedule shifted
by `j`. -/
theorem waitsFrom_defaultSchedule (n j : ℕ) :
    waitsFrom 300 (defaultSchedule j) n
      = (List.range n).map (fun k => defaultSchedule (j + k)) := by
  induction n generalizing j with
  | zero => rfl
  | succ n ih =>
    show defaultSchedule j
        :: waitsFrom 300 (min (defaultSchedule j * 3 / 2) 300) n = _
    rw [← defaultSchedule_step j, ih (j + 1), List.range_succ_eq_map]
    simp only [List.map_cons, List.map_map, Nat.add_zero]
    have hfun : (fun k => defaultSchedule (j + 1 + k))
        = ((fun k => defaultSchedule (j + k)) ∘ Nat.succ) := by
      funext k
      simp only [Function.comp_apply]
      congr 1
      omega
    rw [hfun]

/-- C2 counterexample: the fourth wait produced by consecutive
connection failures is 100 seconds, because the code truncates
`67 · 1.5 = 100.5` with `int()`; the claim's schedule says 101. -/
theorem backoff_fourth_wait_cex :
    (runFailures Settings.MAX_RECONNECT_DELAY
        ⟨0, Settings.RECONNECT_DELAY⟩ 4).1 = [30, 45, 67, 100]
    ∧ (100 : ℕ) ≠ 101 := by
  constructor
  · decide
  · decide

/-- C2 (amended): starting from the default 30 s delay with factor 1.5
(truncated to an integer each step) capped at 300 s, the successive
waits of consecutive connection failures are exactly
30, 45, 67, 100, 150, 225, 300, 300, … . -/
theorem backoff_schedule :
    ∀ n : ℕ, (runFailures Settings.MAX_RECONNECT_DELAY
        ⟨0, Settings.RECONNECT_DELAY⟩ n).1 = (List.range n).map defaultSchedule := by
  intro n
  have h30 : Settings.RECONNECT_DELAY = defaultSchedule 0 := by decide
  rw [runFailures_waits]
  show waitsFrom Settings.MAX_RECONNECT_DELAY Settings.RECONNECT_DELAY n = _
  rw [h30, show Settings.MAX_RECONNECT_DELAY = 300 from rfl, waitsFrom_defaultSchedule n 0]
  simp

/-! ## C1: the buffer fallback for failed primary writes -/

/-- C1: when the primary log is unreachable, publishing a MATCH face
event appends it to neither the primary log nor the buffer, and the
inner publish returns `None` instead of raising.  The buffer retry in
`process_face`'s `except` handler is therefore unreachable — a failed
primary write loses the event instead of buffering it. -/
theorem primary_failure_drops_event (s : RedisState) (d : String)
    (hdown : s.primary_up = false) :
    (process_face_publish s d).face_events = s.face_events
    ∧ (process_face_publish s d).buffer = s.buffer
    ∧ (publish_face_event s d false).1 = none := by
  simp [process_face_publish, publish_face_event, publish_face_detection, redis_xadd, hdown]

/-- C1 witness: the concrete failing input — primary down, buffer up,
both logs empty; after publishing a MATCH event both logs are still
empty and the publish returned `None`. -/
theorem primary_failure_drops_event_witness :
    (process_face_publish ⟨false, true, [], [], 0⟩ "event").face_events = []
    ∧ (process_face_publish ⟨false, true, [], [], 0⟩ "event").buffer = []
    ∧ (publish_face_event ⟨false, true, [], [], 0⟩ "event" false).1 = none :=
  primary_failure_drops_event ⟨false, true, [], [], 0⟩ "event" rfl

/-! ## C9: draining the buffer into the primary log -/

/-- `xadd` does not trim while the stream stays within its capacity. -/
theorem xaddTrim_no_trim (maxlen : ℕ) (l : List StreamMsg) (m : StreamMsg)
    (h : l.length + 1 ≤ maxlen) : xaddTrim maxlen l m = l ++ [m] := by
  simp only [xaddTrim]
  rw [show (l ++ [m]).length - maxlen = 0 by simp; omega]
  rfl

/-- Unfolding the drain loop on an empty snapshot. -/
theorem syncLoop_nil (s : RedisState) (n : ℕ) : syncLoop s [] n = (n, s) := rfl

/-- Unfolding one iteration of the drain loop: append the payload to
the primary log with a fresh id, then delete the entry's id from the
buffer, then continue with the counter incremented. -/
theorem syncLoop_cons (s : RedisState) (m : StreamMsg) (ms : List StreamMsg) (n : ℕ) :
    syncLoop s (m :: ms) n
      = syncLoop ⟨s.primary_up, s.buffer_up,
          xaddTrim PRIMARY_MAXLEN s.face_events ⟨s.next_id, m.data⟩,
          s.buffer.filter (fun x => x.id ≠ m.id), s.next_id + 1⟩ ms (n + 1) := rfl

/-- The drain loop, run over a snapshot `msgs` that forms a prefix of
the buffer with globally distinct ids: it returns the incremented
count, appends exactly the snapshot's payloads to the primary log in
order, and removes exactly the snapshot's entries from the buffer. -/
theorem syncLoop_run (msgs : List StreamMsg) :
    ∀ (s : RedisState) (rest : List StreamMsg) (n : ℕ),
    s.buffer = msgs ++ rest →
    (((msgs ++ rest).map StreamMsg.id)).Nodup →
    s.face_events.length + msgs.length ≤ PRIMARY_MAXLEN →
    (syncLoop s msgs n).1 = n + msgs.length
    ∧ (syncLoop s msgs n).2.buffer = rest
    ∧ (syncLoop s msgs n).2.face_events.map StreamMsg.data
        = s.face_events.map StreamMsg.data ++ msgs.map StreamMsg.data := by
  induction msgs with
  | nil =>
    intro s rest n hbuf _ _
    rw [syncLoop_nil]
    exact ⟨by simp, by simpa using hbuf, by simp⟩
  | cons m ms ih =>
    intro s rest n hbuf hnodup hlen
    have hface : xaddTrim PRIMARY_MAXLEN s.face_events ⟨s.next_id, m.data⟩
        = s.face_events ++ [⟨s.next_id, m.data⟩] := by
      apply xaddTrim_no_trim
      simp at hlen
      omega
    have hmid : m.id ∉ (ms ++ rest).map StreamMsg.id := by
      have := hnodup
      simp only [List.cons_append, List.map_cons, List.nodup_cons] at this
      exact this.1
    have hfilter : (m :: (ms ++ rest)).filter (fun x => x.id ≠ m.id) = ms ++ rest := by
      rw [List.filter_cons]
      simp only [decide_not]
      rw [if_neg (by simp)]
      apply List.filter_eq_self.mpr
      intro a ha
      simp only [decide_not, Bool.not_eq_true']
      simp only [decide_eq_false_iff_not]
      intro hid
      exact hmid (hid ▸ List.mem_map_of_mem StreamMsg.id ha)
    rw [syncLoop_cons]
    have hstep := ih
      (⟨s.primary_up, s.buffer_up,
          xaddTrim PRIMARY_MAXLEN s.face_events ⟨s.next_id, m.data⟩,
          s.buffer.filter (fun x => x.id ≠ m.id), s.next_id + 1⟩ : RedisState)
      rest (n + 1)
      (by
        simp only [hbuf]
        exact hfilter)
      (by
        simp only [List.cons_append, List.map_cons, List.nodup_cons] at hnodup
        exact hnodup.2)
      (by
        simp only [hface, List.length_append, List.length_singleton]
        simp at hlen
        omega)
    refine ⟨?_, ?_, ?_⟩
    · rw [hstep.1]
      simp
      omega
    · exact hstep.2.1
    · rw [hstep.2.2]
      simp [hface]

/-- C9: with the primary log reachable, one call to
`sync_buffer_to_stream` copies every buffered entry's payload to the
primary log exactly once and in original buffer order, returns the
number of entries moved, and leaves the buffer empty; moreover after
any prefix of `k` loop iterations exactly the first `k` entries have
been appended to the primary and exactly those `k` have been deleted
from the buffer — an entry is deleted only after it was accepted. -/
theorem drain_buffer_spec (s : RedisState)
    (hup : s.primary_up = true)
    (hnodup : (s.buffer.map StreamMsg.id).Nodup)
    (hcap : s.face_events.length + s.buffer.length ≤ PRIMARY_MAXLEN) :
    (sync_buffer_to_stream s).1 = s.buffer.length
    ∧ (sync_buffer_to_stream s).2.buffer = []
    ∧ (sync_buffer_to_stream s).2.face_events.map StreamMsg.data
        = s.face_events.map StreamMsg.data ++ s.buffer.map StreamMsg.data
    ∧ (∀ k, k ≤ s.buffer.length →
        (syncLoop s (s.buffer.take k) 0).2.buffer = s.buffer.drop k
        ∧ (syncLoop s (s.buffer.take k) 0).2.face_events.map StreamMsg.data
            = s.face_events.map StreamMsg.data ++ (s.buffer.take k).map StreamMsg.data) := by
  have hsync : sync_buffer_to_stream s = syncLoop s s.buffer 0 := by
    simp [sync_buffer_to_stream, hup]
  have hfull := syncLoop_run s.buffer s [] 0 (by simp) (by simpa using hnodup)
    (by simpa using hcap)
  refine ⟨by rw [hsync]; simpa using hfull.1, by rw [hsync]; exact hfull.2.1,
    by rw [hsync]; exact hfull.2.2, ?_⟩
  intro k hk
  have hpre := syncLoop_run (s.buffer.take k) s (s.buffer.drop k) 0
    (by rw [List.take_append_drop])
    (by rw [List.take_append_drop]; exact hnodup)
    (by
      have := List.length_take_le k s.buffer
      omega)
  exact ⟨hpre.2.1, hpre.2.2⟩

/-- C9 witness: a primary log holding one event and a buffer of two
entries with distinct ids drains completely. -/
theorem drain_buffer_spec_witness :
    (sync_buffer_to_stream ⟨true, true, [⟨0, "x"⟩], [⟨1, "b1"⟩, ⟨2, "b2"⟩], 3⟩).1
        = ([(⟨1, "b1"⟩ : StreamMsg), ⟨2, "b2"⟩]).length
    ∧ (sync_buffer_to_stream ⟨true, true, [⟨0, "x"⟩], [⟨1, "b1"⟩, ⟨2, "b2"⟩], 3⟩).2.buffer = []
    ∧ (sync_buffer_to_stream
          ⟨true, true, [⟨0, "x"⟩], [⟨1, "b1"⟩, ⟨2, "b2"⟩], 3⟩).2.face_events.map
          StreamMsg.data
        = [(⟨0, "x"⟩ : StreamMsg)].map StreamMsg.data
          ++ [(⟨1, "b1"⟩ : StreamMsg), ⟨2, "b2"⟩].map StreamMsg.data
    ∧ ((syncLoop ⟨true, true, [⟨0, "x"⟩], [⟨1, "b1"⟩, ⟨2, "b2"⟩], 3⟩
          ([(⟨1, "b1"⟩ : StreamMsg), ⟨2, "b2"⟩].take 1) 0).2.buffer
        = [(⟨1, "b1"⟩ : StreamMsg), ⟨2, "b2"⟩].drop 1) := by
  have h := drain_buffer_spec ⟨true, true, [⟨0, "x"⟩], [⟨1, "b1"⟩, ⟨2, "b2"⟩], 3⟩ rfl
    (by decide)
    (by unfold PRIMARY_MAXLEN; norm_num)
  exact ⟨h.1, h.2.1, h.2.2.1, (h.2.2.2 1 (by norm_num)).1⟩

/-! ## C8: properties of the remapped cosine similarity -/

/-- The dot product of a vector with itself is nonnegative. -/
theorem dotProduct_self_nonneg {n : ℕ} (x : Fin n → ℝ) : 0 ≤ dotProduct x x :=
  Finset.sum_nonneg fun i _ => mul_self_nonneg (x i)

/-- The dot product of a nonzero vector with itself is positive. -/
theorem dotProduct_self_pos {n : ℕ} (x : Fin n → ℝ) (hx : x ≠ 0) : 0 < dotProduct x x := by
  obtain ⟨i, hi⟩ : ∃ i, x i ≠ 0 := by
    by_contra h
    push_neg at h
    exact hx (funext h)
  exact Finset.sum_pos' (fun j _ => mul_self_nonneg (x j))
    ⟨i, Finset.mem_univ i, mul_self_pos.mpr hi⟩

/-- `norm(x)² = dot(x, x)`. -/
theorem vecNorm_mul_self {n : ℕ} (x : Fin n → ℝ) : vecNorm x * vecNorm x = dotProduct x x :=
  Real.mul_self_sqrt (dotProduct_self_nonneg x)

/-- The dot product is symmetric. -/
theorem dotProduct_comm {n : ℕ} (x y : Fin n → ℝ) : dotProduct x y = dotProduct y x := by
  simp [dotProduct, mul_comm]

/-- `dot(x, −x) = −dot(x, x)`. -/
theorem dotProduct_neg_right {n : ℕ} (x : Fin n → ℝ) :
    dotProduct x (-x) = -dotProduct x x := by
  simp [dotProduct, mul_neg, Finset.sum_neg_distrib]

/-- Negation preserves the norm. -/
theorem vecNorm_neg {n : ℕ} (x : Fin n → ℝ) : vecNorm (-x) = vecNorm x := by
  simp [vecNorm, dotProduct, neg_mul_neg]

/-- Cauchy-Schwarz: the dot product is bounded by the product of the
norms. -/
theorem abs_dotProduct_le {n : ℕ} (x y : Fin n → ℝ) :
    |dotProduct x y| ≤ vecNorm x * vecNorm y := by
  have h2 : (dotProduct x y) ^ 2 ≤ dotProduct x x * dotProduct y y := by
    have h := Finset.sum_mul_sq_le_sq_mul_sq Finset.univ x y
    simpa [dotProduct, sq] using h
  have habs : |dotProduct x y| = Real.sqrt ((dotProduct x y) ^ 2) :=
    (Real.sqrt_sq_eq_abs _).symm
  rw [habs]
  calc Real.sqrt ((dotProduct x y) ^ 2)
      ≤ Real.sqrt (dotProduct x x * dotProduct y y) := Real.sqrt_le_sqrt h2
    _ = vecNorm x * vecNorm y := Real.sqrt_mul (dotProduct_self_nonneg x) _

/-- C8: for nonzero vectors, the remapped cosine similarity satisfies
`sim(x, x) = 1`, `sim(x, −x) = 0`, symmetry, and `0 ≤ sim ≤ 1`. -/
theorem compute_similarity_props {n : ℕ} (x y : Fin n → ℝ) (hx : x ≠ 0) (hy : y ≠ 0) :
    compute_similarity x x = 1
    ∧ compute_similarity x (-x) = 0
    ∧ compute_similarity x y = compute_similarity y x
    ∧ 0 ≤ compute_similarity x y
    ∧ compute_similarity x y ≤ 1 := by
  have hnx : 0 < vecNorm x := Real.sqrt_pos.mpr (dotProduct_self_pos x hx)
  have hny : 0 < vecNorm y := Real.sqrt_pos.mpr (dotProduct_self_pos y hy)
  have hN : 0 < vecNorm x * vecNorm y := mul_pos hnx hny
  have hdxx : dotProduct x x ≠ 0 := ne_of_gt (dotProduct_self_pos x hx)
  refine ⟨?_, ?_, ?_, ?_, ?_⟩
  · rw [compute_similarity, vecNorm_mul_self, div_self hdxx]
    norm_num
  · rw [compute_similarity, vecNorm_neg, vecNorm_mul_self, dotProduct_neg_right,
      neg_div, div_self hdxx]
    norm_num
  · rw [compute_similarity, compute_similarity, dotProduct_comm, mul_comm]
  · have hge : -(vecNorm x * vecNorm y) ≤ dotProduct x y :=
      neg_le_of_abs_le (abs_dotProduct_le x y)
    have h1 : (-1 : ℝ) ≤ dotProduct x y / (vecNorm x * vecNorm y) := by
      rw [le_div_iff₀ hN, neg_one_mul]
      exact hge
    rw [compute_similarity]
    linarith
  · have hle : dotProduct x y ≤ vecNorm x * vecNorm y :=
      le_of_abs_le (abs_dotProduct_le x y)
    have h1 : dotProduct x y / (vecNorm x * vecNorm y) ≤ 1 :=
      div_le_one_of_le₀ hle (le_of_lt hN)
    rw [compute_similarity]
    linarith

/-- C8 witness at the constant one-dimensional vector. -/
theorem compute_similarity_props_witness :
    compute_similarity (fun _ : Fin 1 => (1 : ℝ)) (fun _ : Fin 1 => (1 : ℝ)) = 1
    ∧ compute_similarity (fun _ : Fin 1 => (1 : ℝ)) (-(fun _ : Fin 1 => (1 : ℝ))) = 0
    ∧ compute_similarity (fun _ : Fin 1 => (1 : ℝ)) (fun _ : Fin 1 => (1 : ℝ))
        = compute_similarity (fun _ : Fin 1 => (1 : ℝ)) (fun _ : Fin 1 => (1 : ℝ))
    ∧ 0 ≤ compute_similarity (fun _ : Fin 1 => (1 : ℝ)) (fun _ : Fin 1 => (1 : ℝ))
    ∧ compute_similarity (fun _ : Fin 1 => (1 : ℝ)) (fun _ : Fin 1 => (1 : ℝ)) ≤ 1 :=
  compute_similarity_props (fun _ : Fin 1 => (1 : ℝ)) (fun _ : Fin 1 => (1 : ℝ))
    (by
      intro h
      have h0 := congrFun h 0
      norm_num at h0)
    (by
      intro h
      have h0 := congrFun h 0
      norm_num at h0)

end CCTV
